import Mathlib

/-!
# NH-testing-engineer-quiz: audio player with a biquad effect chain

A shallow embedding of `src/src/effect.cpp` and `src/src/player.cpp`.

Samples, parameters and coefficients live in one commutative field `R`
(`float` widened to `double` is the identity on values; `double` narrowed to
`float` is the function `Numerics.narrow`).  `<cmath>` is the record
`Numerics`: the constant `M_PI` and the functions `std::sin`, `std::cos`.
Instantiating `R` with `ℚ` makes every definition evaluable; instantiating it
with `ℝ` and `Real.sin`, `Real.cos` gives the exact-arithmetic reading.
-/

namespace Quiz

/-! ## effect.h / effect.cpp -/

/-- The enumeration `BiquadFilter::FilterType` of `effect.h`. -/
inductive FilterType where
  | LowPass
  | HighPass
  | BandPass
  | Notch
  deriving DecidableEq, Repr

/-- What `effect.cpp` takes from outside: `M_PI`, `std::sin`, `std::cos` and the
conversion `static_cast<float>` of a `double`. -/
structure Numerics (R : Type) where
  pi : R
  sin : R → R
  cos : R → R
  narrow : R → R

/-- The data members of `class BiquadFilter` (`effect.h`, lines 44-55). -/
structure BiquadFilter (R : Type) where
  filterType : FilterType
  frequency : R
  q : R
  gain : R
  sampleRate : R
  b0 : R
  b1 : R
  b2 : R
  a0 : R
  a1 : R
  a2 : R
  x1 : List R
  x2 : List R
  y1 : List R
  y2 : List R

/-- A `juce::AudioBuffer<float>`: `numSamples` frames in each of its channels.
Every channel list holds exactly `numSamples` samples (the class keeps its
channels rectangular), so a loop `for (i = 0; i < numSamples; ++i)` over one
channel is the traversal of that channel's list. -/
structure AudioBuffer (R : Type) where
  numSamples : Nat
  channels : List (List R)

namespace BiquadFilter

variable {R : Type}

/-- The `case` labels of the `switch` in `calculateCoefficients`, in the order
in which they are written (lines 91, 99, 107, 115). -/
def switchLabels : List FilterType :=
  [FilterType.BandPass, FilterType.Notch, FilterType.HighPass, FilterType.LowPass]

/-- The statements written under one `case` label (lines 92-97, 100-105,
108-113, 116-121). -/
def caseBody [Field R] (cosw alpha : R) (label : FilterType) (f : BiquadFilter R) :
    BiquadFilter R :=
  match label with
  | FilterType.BandPass =>
      { f with b0 := alpha, b1 := 0, b2 := -alpha,
               a0 := 1 + alpha, a1 := -2 * cosw, a2 := 1 - alpha }
  | FilterType.Notch =>
      { f with b0 := 1, b1 := -2 * cosw, b2 := 1,
               a0 := 1 + alpha, a1 := -2 * cosw, a2 := 1 - alpha }
  | FilterType.HighPass =>
      { f with b0 := (1 + cosw) / 2, b1 := -(1 + cosw), b2 := (1 + cosw) / 2,
               a0 := 1 + alpha, a1 := -2 * cosw, a2 := 1 - alpha }
  | FilterType.LowPass =>
      { f with b0 := (1 - cosw) / 2, b1 := 1 - cosw, b2 := (1 - cosw) / 2,
               a0 := 1 + alpha, a1 := -2 * cosw, a2 := 1 - alpha }

/-- Control flow of a C++ `switch` whose cases end without `break`: the
statements run from the label that matches `t` to the closing brace.  `labels`
is what is still below the current point; `entered` says whether the matching
label has been passed. -/
def runSwitch [Field R] (cosw alpha : R) (t : FilterType) :
    List FilterType → Bool → BiquadFilter R → BiquadFilter R
  | [], _, f => f
  | label :: rest, entered, f =>
      if entered || decide (label = t) then
        runSwitch cosw alpha t rest true (caseBody cosw alpha label f)
      else
        runSwitch cosw alpha t rest false f

/-- `BiquadFilter::calculateCoefficients` (lines 84-125). -/
def calculateCoefficients [Field R] (N : Numerics R) (f : BiquadFilter R) : BiquadFilter R :=
  let omega := 2 * N.pi * f.frequency / f.sampleRate
  let sinw := N.sin omega
  let cosw := N.cos omega
  let alpha := sinw / (2 * f.q)
  runSwitch cosw alpha f.filterType switchLabels false f

/-- `BiquadFilter::BiquadFilter()` (lines 4-6) after the default member
initialisers of `effect.h`.  The six coefficients have no initialiser; they are
written here as `0` and `calculateCoefficients` overwrites all of them. -/
def new [Field R] (N : Numerics R) : BiquadFilter R :=
  calculateCoefficients N
    { filterType := FilterType.LowPass, frequency := 1000, q := 1, gain := 0,
      sampleRate := 44100,
      b0 := 0, b1 := 0, b2 := 0, a0 := 0, a1 := 0, a2 := 0,
      x1 := [], x2 := [], y1 := [], y2 := [] }

/-- `std::vector<double>::resize(n, 0.0)`. -/
def resize [Zero R] (v : List R) (n : Nat) : List R :=
  v.take n ++ List.replicate (n - v.length) 0

/-- One pass of the inner loop body of `processingBlock` (lines 24-36) for
channel `ch` and the sample `input`; the second component is the value stored
back into the buffer. -/
def processSample [Field R] (N : Numerics R) (ch : Nat) (f : BiquadFilter R) (input : R) :
    BiquadFilter R × R :=
  let output := (f.b0 * input + f.b1 * f.x1.getD ch 0 + f.b2 * f.x2.getD ch 0
                  - f.a1 * f.y1.getD ch 0 - f.a2 * f.y2.getD ch 0) / f.a0
  let f := { f with x2 := f.x2.set ch (f.x1.getD ch 0) }
  let f := { f with x1 := f.x1.set ch input }
  let f := { f with y2 := f.y2.set ch (f.y1.getD ch 0) }
  let f := { f with y1 := f.y1.set ch output }
  (f, N.narrow output)

/-- The inner loop of `processingBlock` (lines 23-37) over the samples of
channel `ch`. -/
def processChannel [Field R] (N : Numerics R) (ch : Nat) :
    BiquadFilter R → List R → BiquadFilter R × List R
  | f, [] => (f, [])
  | f, input :: rest =>
      let r := processSample N ch f input
      let r2 := processChannel N ch r.1 rest
      (r2.1, r.2 :: r2.2)

/-- The outer loop of `processingBlock` (lines 20-38) from channel index `ch`
on. -/
def processChannels [Field R] (N : Numerics R) :
    Nat → BiquadFilter R → List (List R) → BiquadFilter R × List (List R)
  | _, f, [] => (f, [])
  | ch, f, channelData :: rest =>
      let r := processChannel N ch f channelData
      let r2 := processChannels N (ch + 1) r.1 rest
      (r2.1, r.2 :: r2.2)

/-- The state-vector adjustment at the head of `processingBlock` (lines 13-18). -/
def ensureSize [Zero R] (f : BiquadFilter R) (numChannels : Nat) : BiquadFilter R :=
  if f.x1.length ≠ numChannels then
    { f with x1 := resize f.x1 numChannels, x2 := resize f.x2 numChannels,
             y1 := resize f.y1 numChannels, y2 := resize f.y2 numChannels }
  else f

/-- `BiquadFilter::processingBlock` (lines 8-39). -/
def processingBlock [Field R] (N : Numerics R) (f : BiquadFilter R) (buffer : AudioBuffer R) :
    BiquadFilter R × AudioBuffer R :=
  let numChannels := buffer.channels.length
  let r := processChannels N 0 (ensureSize f numChannels) buffer.channels
  (r.1, { buffer with channels := r.2 })

/-- `BiquadFilter::resetState` (lines 41-46): `std::fill` of the four vectors. -/
def resetState [Zero R] (f : BiquadFilter R) : BiquadFilter R :=
  { f with x1 := List.replicate f.x1.length 0, x2 := List.replicate f.x2.length 0,
           y1 := List.replicate f.y1.length 0, y2 := List.replicate f.y2.length 0 }

/-- `BiquadFilter::setSampleRate` (lines 48-54). -/
def setSampleRate [Field R] [DecidableEq R] (N : Numerics R) (f : BiquadFilter R)
    (newSampleRate : R) : BiquadFilter R :=
  if newSampleRate ≠ f.sampleRate then
    resetState (calculateCoefficients N { f with sampleRate := newSampleRate })
  else f

/-- `BiquadFilter::setType` (lines 56-61). -/
def setType [Field R] (N : Numerics R) (f : BiquadFilter R) (type : FilterType) :
    BiquadFilter R :=
  if type ≠ f.filterType then calculateCoefficients N { f with filterType := type } else f

/-- `BiquadFilter::setFrequency` (lines 63-68). -/
def setFrequency [Field R] [DecidableEq R] (N : Numerics R) (f : BiquadFilter R)
    (newFrequency : R) : BiquadFilter R :=
  if newFrequency ≠ f.frequency then calculateCoefficients N { f with frequency := newFrequency }
  else f

/-- `BiquadFilter::setQ` (lines 70-75). -/
def setQ [Field R] [DecidableEq R] (N : Numerics R) (f : BiquadFilter R) (newQ : R) :
    BiquadFilter R :=
  if newQ ≠ f.q then calculateCoefficients N { f with q := newQ } else f

/-- `BiquadFilter::setGain` (lines 77-82). -/
def setGain [Field R] [DecidableEq R] (N : Numerics R) (f : BiquadFilter R) (newGain : R) :
    BiquadFilter R :=
  if newGain ≠ f.gain then calculateCoefficients N { f with gain := newGain } else f

end BiquadFilter

/-! ## player.h / player.cpp -/

/-- What the player reads of a `juce::AudioFormatReader`: the public members
`lengthInSamples` and `numChannels`.  The samples it delivers are an input of
each audio callback (`CallbackArgs.readData`). -/
structure AudioFormatReader where
  lengthInSamples : Nat
  numChannels : Nat
  deriving DecidableEq, Repr

/-- The data members of `class PlayerProcessor` (`player.h`, lines 79-99) that
the playback logic uses.  `effects` holds the addresses the shared pointers
refer to; `addEffect` is the only insertion and refuses a null pointer, so no
entry is null. -/
structure PlayerProcessor (R : Type) where
  reader : Option AudioFormatReader
  isPlayingState : Bool
  currentPosition : Nat
  totalLength : Nat
  currentSampleRate : R
  currentBufferSize : Nat
  effects : List Nat
  processBuffer : AudioBuffer R

/-- The program state: the player and the effect objects that shared pointers
refer to, by address.  An effect object may be held by the chain (several times,
even) and by the caller at once. -/
structure Machine (R : Type) where
  objects : Nat → BiquadFilter R
  player : PlayerProcessor R

/-- Arguments and environment of one `audioDeviceIOCallback`: the output
pointers (`none` is a null pointer) with the memory behind them, the frame
count, the contents `processBuffer` has after a `setSize`, the samples
`reader->read` leaves in `processBuffer` (channel, frame) and its result. -/
structure CallbackArgs (R : Type) where
  outputChannelData : List (Option (List R))
  numSamples : Nat
  fresh : Nat → Nat → R
  readData : Nat → Nat → R
  readSuccess : Bool

/-- Conversion of an unsigned 64-bit value to `int` (`static_cast<int>`). -/
def castInt (n : Nat) : Int :=
  if n % 2 ^ 32 < 2 ^ 31 then ((n % 2 ^ 32 : Nat) : Int) else ((n % 2 ^ 32 : Nat) : Int) - 2 ^ 32

namespace AudioBuffer

variable {R : Type}

/-- `juce::AudioBuffer::setSize(numChannels, numSamples)`; `fresh` gives the
contents of the (re)allocated storage, which the class leaves unspecified. -/
def setSize (fresh : Nat → Nat → R) (numChannels numSamples : Nat) : AudioBuffer R :=
  { numSamples := numSamples,
    channels := (List.range numChannels).map fun ch => (List.range numSamples).map (fresh ch) }

/-- The effect of `reader->read(&buffer, 0, count, ...)` on the buffer: the first
`count` frames of every channel, from channel index `ch` on, are overwritten. -/
def readInto (readData : Nat → Nat → R) (count : Nat) : Nat → List (List R) → List (List R)
  | _, [] => []
  | ch, channelData :: rest =>
      ((List.range count).map (readData ch) ++ channelData.drop count)
        :: readInto readData count (ch + 1) rest

/-- `getReadPointer(channel)` for an `int` channel index. -/
def getReadPointer (buffer : AudioBuffer R) (channel : Int) : Option (List R) :=
  if 0 ≤ channel then buffer.channels[channel.toNat]? else none

end AudioBuffer

/-- `juce::FloatVectorOperations::clear(dest, num)`. -/
def clear {R : Type} [Zero R] (dest : List R) (num : Nat) : List R :=
  List.replicate num 0 ++ dest.drop num

/-- `juce::FloatVectorOperations::copy(dest, src, num)`. -/
def copy {R : Type} (dest src : List R) (num : Nat) : List R :=
  src.take num ++ dest.drop num

namespace PlayerProcessor

variable {R : Type}

/-- `PlayerProcessor::PlayerProcessor()` with the default member initialisers
of `player.h`. -/
def new [Field R] : PlayerProcessor R :=
  { reader := none, isPlayingState := false, currentPosition := 0, totalLength := 0,
    currentSampleRate := 44100, currentBufferSize := 1024, effects := [],
    processBuffer := { numSamples := 0, channels := [] } }

/-- The loop of `resetAllEffects` (lines 152-156) over the remaining chain. -/
def resetEach [Zero R] : List Nat → (Nat → BiquadFilter R) → (Nat → BiquadFilter R)
  | [], objects => objects
  | effect :: rest, objects =>
      resetEach rest (Function.update objects effect (BiquadFilter.resetState (objects effect)))

/-- `PlayerProcessor::resetAllEffects` (lines 151-157). -/
def resetAllEffects [Zero R] (m : Machine R) : Machine R :=
  { m with objects := resetEach m.player.effects m.objects }

/-- The loop of `processingBlock` (lines 161-165) over the remaining chain. -/
def applyEach [Field R] (N : Numerics R) :
    List Nat → (Nat → BiquadFilter R) → AudioBuffer R → (Nat → BiquadFilter R) × AudioBuffer R
  | [], objects, buffer => (objects, buffer)
  | effect :: rest, objects, buffer =>
      let r := BiquadFilter.processingBlock N (objects effect) buffer
      applyEach N rest (Function.update objects effect r.1) r.2

/-- `PlayerProcessor::processingBlock` (lines 159-166) on a caller's buffer. -/
def processingBlock [Field R] (N : Numerics R) (m : Machine R) (buffer : AudioBuffer R) :
    Machine R × AudioBuffer R :=
  let r := applyEach N m.player.effects m.objects buffer
  ({ m with objects := r.1 }, r.2)

/-- `PlayerProcessor::initializeAudio` (lines 16-52), as far as the player's own
members go: the two assignments at its head.  The device manager is external. -/
def initializeAudio (sampleRate : R) (bufferSize : Nat) (m : Machine R) : Machine R :=
  { m with player := { m.player with currentSampleRate := sampleRate,
                                     currentBufferSize := bufferSize } }

/-- `PlayerProcessor::load` (lines 61-99).  `existsAsFile` is the answer of
`file.existsAsFile()`, `created` the result of `formatManager.createReaderFor`
(`none` is the null pointer). -/
def load [Zero R] (existsAsFile : Bool) (created : Option AudioFormatReader)
    (fresh : Nat → Nat → R) (m : Machine R) : Machine R × Bool :=
  if !existsAsFile then (m, false)
  else
    let m := { m with player := { m.player with reader := created } }
    match m.player.reader with
    | some reader =>
        let p := { m.player with totalLength := reader.lengthInSamples % 2 ^ 64 }
        let p := { p with currentPosition := 0 }
        let p := { p with processBuffer :=
                            AudioBuffer.setSize fresh reader.numChannels p.currentBufferSize }
        (resetAllEffects { m with player := p }, true)
    | none => (m, false)

/-- `PlayerProcessor::play` (lines 101-107). -/
def play (m : Machine R) : Machine R × Bool :=
  if m.player.reader.isSome && !m.player.isPlayingState then
    ({ m with player := { m.player with isPlayingState := true } }, true)
  else (m, false)

/-- `PlayerProcessor::pause` (lines 109-115). -/
def pause (m : Machine R) : Machine R × Bool :=
  if m.player.isPlayingState then
    ({ m with player := { m.player with isPlayingState := false } }, true)
  else (m, false)

/-- `PlayerProcessor::stop` (lines 117-125). -/
def stop [Zero R] (m : Machine R) : Machine R × Bool :=
  if m.player.reader.isSome then
    let p := { m.player with isPlayingState := false }
    let p := { p with currentPosition := 0 }
    (resetAllEffects { m with player := p }, true)
  else (m, false)

/-- `PlayerProcessor::seek` (lines 127-134). -/
def seek [Zero R] (sample : Nat) (m : Machine R) : Machine R × Nat :=
  if m.player.reader.isSome ∧ sample < m.player.totalLength then
    let m := resetAllEffects { m with player := { m.player with currentPosition := sample } }
    (m, m.player.currentPosition)
  else (m, m.player.currentPosition)

/-- `PlayerProcessor::addEffect` (lines 136-141); `none` is a null pointer. -/
def addEffect [Field R] [DecidableEq R] (N : Numerics R) (effect : Option Nat)
    (m : Machine R) : Machine R :=
  match effect with
  | some e =>
      { objects := Function.update m.objects e
          (BiquadFilter.setSampleRate N (m.objects e) m.player.currentSampleRate),
        player := { m.player with effects := m.player.effects ++ [e] } }
  | none => m

/-- `PlayerProcessor::removeEffect` (lines 143-145). -/
def removeEffect (effect : Option Nat) (m : Machine R) : Machine R :=
  { m with player := { m.player with
      effects := m.player.effects.filter fun e => decide (some e ≠ effect) } }

/-- `PlayerProcessor::clearEffects` (lines 147-149). -/
def clearEffects (m : Machine R) : Machine R :=
  { m with player := { m.player with effects := [] } }

/-- The loop over the chain in `audioDeviceAboutToStart` (lines 229-233). -/
def setSampleRateEach [Field R] [DecidableEq R] (N : Numerics R) (rate : R) :
    List Nat → (Nat → BiquadFilter R) → (Nat → BiquadFilter R)
  | [], objects => objects
  | effect :: rest, objects =>
      setSampleRateEach N rate rest
        (Function.update objects effect (BiquadFilter.setSampleRate N (objects effect) rate))

/-- `PlayerProcessor::audioDeviceAboutToStart` (lines 223-238); `device` is
`none` for a null pointer, else the device's sample rate and buffer size. -/
def audioDeviceAboutToStart [Field R] [DecidableEq R] (N : Numerics R)
    (device : Option (R × Nat)) (fresh : Nat → Nat → R) (m : Machine R) : Machine R :=
  match device with
  | some (rate, size) =>
      let p := { m.player with currentSampleRate := rate, currentBufferSize := size }
      { objects := setSampleRateEach N p.currentSampleRate p.effects m.objects,
        player := { p with processBuffer := AudioBuffer.setSize fresh 2 p.currentBufferSize } }
  | none => m

/-- `PlayerProcessor::audioDeviceStopped` (lines 240-243). -/
def audioDeviceStopped (fresh : Nat → Nat → R) (m : Machine R) : Machine R :=
  { m with player := { m.player with processBuffer := AudioBuffer.setSize fresh 0 0 } }

/-- The first loop of the callback (lines 171-175). -/
def clearOutputs [Zero R] (outputChannelData : List (Option (List R))) (numSamples : Nat) :
    List (Option (List R)) :=
  outputChannelData.map fun o => o.map fun dest => clear dest numSamples

/-- The copy loop of the callback (lines 203-211) from output channel `ch` on;
`none` when `getReadPointer` is handed an invalid channel index. -/
def copyOutputs (processBuffer : AudioBuffer R) (samplesToRead : Nat) :
    Nat → List (Option (List R)) → Option (List (Option (List R)))
  | _, [] => some []
  | ch, o :: rest =>
      let sourceChannel : Int := min (ch : Int) ((processBuffer.channels.length : Int) - 1)
      match o with
      | some dest =>
          match processBuffer.getReadPointer sourceChannel with
          | some src =>
              (copyOutputs processBuffer samplesToRead (ch + 1) rest).map
                fun done => some (copy dest src samplesToRead) :: done
          | none => none
      | none =>
          (copyOutputs processBuffer samplesToRead (ch + 1) rest).map fun done => none :: done

/-- The adjustment of `processBuffer` in the callback (lines 178-182). -/
def resizeProcessBuffer (args : CallbackArgs R) (reader : AudioFormatReader)
    (p : PlayerProcessor R) : PlayerProcessor R :=
  if p.processBuffer.numSamples ≠ args.numSamples
      ∨ p.processBuffer.channels.length ≠ reader.numChannels then
    { p with processBuffer :=
               AudioBuffer.setSize args.fresh reader.numChannels args.numSamples }
  else p

/-- The local `samplesToRead` of the callback (lines 184-187): the sum and the
difference are computed in `uint64_t`, the difference is converted to `int`. -/
def samplesToRead (p : PlayerProcessor R) (numSamples : Nat) : Int :=
  if (p.currentPosition + numSamples) % 2 ^ 64 > p.totalLength then
    castInt ((p.totalLength + 2 ^ 64 - p.currentPosition) % 2 ^ 64)
  else (numSamples : Int)

/-- What `reader->read(&processBuffer, 0, count, ...)` (line 191) does to the
player: the first `count` frames of `processBuffer` are overwritten. -/
def readBlock (args : CallbackArgs R) (count : Nat) (p : PlayerProcessor R) :
    PlayerProcessor R :=
  { p with processBuffer :=
             { p.processBuffer with
               channels := AudioBuffer.readInto args.readData count 0 p.processBuffer.channels } }

/-- The end-of-file test that closes the callback (lines 214-219). -/
def stopAtEnd [Zero R] (m : Machine R) : Machine R :=
  if m.player.currentPosition ≥ m.player.totalLength then
    let p := { m.player with isPlayingState := false }
    let p := { p with currentPosition := 0 }
    resetAllEffects { m with player := p }
  else m

/-- `PlayerProcessor::audioDeviceIOCallback` (lines 168-221).  The result is the
new program state and the output channels; `none` when the call dereferences a
null `reader` (line 178) or reads an invalid channel of `processBuffer`. -/
def audioDeviceIOCallback [Field R] (N : Numerics R) (args : CallbackArgs R) (m : Machine R) :
    Option (Machine R × List (Option (List R))) :=
  let out := clearOutputs args.outputChannelData args.numSamples
  match m.player.reader with
  | none => none
  | some reader =>
      let m := { m with player := resizeProcessBuffer args reader m.player }
      let count := samplesToRead m.player args.numSamples
      if count > 0 then
        let m := { m with player := readBlock args count.toNat m.player }
        if !args.readSuccess then some (m, out)
        else
          let m := { m with player := { m.player with
            currentPosition := (m.player.currentPosition + count.toNat) % 2 ^ 64 } }
          let r := processingBlock N m m.player.processBuffer
          let m := { r.1 with player := { r.1.player with processBuffer := r.2 } }
          match copyOutputs m.player.processBuffer count.toNat 0 out with
          | none => none
          | some out => some (stopAtEnd m, out)
      else some (m, out)

end PlayerProcessor

/-! ## Runs of the program -/

/-- One call into the program: a public member function of `PlayerProcessor`,
a device callback, or a setter called on an effect object by a holder of its
shared pointer. -/
inductive Op (R : Type) where
  | initializeAudio (sampleRate : R) (bufferSize : Nat)
  | load (existsAsFile : Bool) (created : Option AudioFormatReader) (fresh : Nat → Nat → R)
  | play
  | pause
  | stop
  | seek (sample : Nat)
  | addEffect (effect : Option Nat)
  | removeEffect (effect : Option Nat)
  | clearEffects
  | audioDeviceAboutToStart (device : Option (R × Nat)) (fresh : Nat → Nat → R)
  | audioDeviceStopped (fresh : Nat → Nat → R)
  | audioDeviceIOCallback (args : CallbackArgs R)
  | setType (effect : Nat) (type : FilterType)
  | setFrequency (effect : Nat) (frequency : R)
  | setQ (effect : Nat) (q : R)
  | setGain (effect : Nat) (gain : R)

/-- The program state after one call; `none` when the call has no defined
outcome. -/
def step {R : Type} [Field R] [DecidableEq R] (N : Numerics R) (m : Machine R) :
    Op R → Option (Machine R)
  | Op.initializeAudio sampleRate bufferSize =>
      some (PlayerProcessor.initializeAudio sampleRate bufferSize m)
  | Op.load existsAsFile created fresh =>
      some (PlayerProcessor.load existsAsFile created fresh m).1
  | Op.play => some (PlayerProcessor.play m).1
  | Op.pause => some (PlayerProcessor.pause m).1
  | Op.stop => some (PlayerProcessor.stop m).1
  | Op.seek sample => some (PlayerProcessor.seek sample m).1
  | Op.addEffect effect => some (PlayerProcessor.addEffect N effect m)
  | Op.removeEffect effect => some (PlayerProcessor.removeEffect effect m)
  | Op.clearEffects => some (PlayerProcessor.clearEffects m)
  | Op.audioDeviceAboutToStart device fresh =>
      some (PlayerProcessor.audioDeviceAboutToStart N device fresh m)
  | Op.audioDeviceStopped fresh => some (PlayerProcessor.audioDeviceStopped fresh m)
  | Op.audioDeviceIOCallback args => (PlayerProcessor.audioDeviceIOCallback N args m).map Prod.fst
  | Op.setType effect type =>
      some { m with objects :=
        Function.update m.objects effect (BiquadFilter.setType N (m.objects effect) type) }
  | Op.setFrequency effect frequency =>
      some { m with objects :=
        Function.update m.objects effect (BiquadFilter.setFrequency N (m.objects effect) frequency) }
  | Op.setQ effect q =>
      some { m with objects :=
        Function.update m.objects effect (BiquadFilter.setQ N (m.objects effect) q) }
  | Op.setGain effect gain =>
      some { m with objects :=
        Function.update m.objects effect (BiquadFilter.setGain N (m.objects effect) gain) }

/-- The program state after a sequence of calls. -/
def run {R : Type} [Field R] [DecidableEq R] (N : Numerics R) :
    Machine R → List (Op R) → Option (Machine R)
  | m, [] => some m
  | m, op :: rest =>
      match step N m op with
      | some m1 => run N m1 rest
      | none => none

/-- The program state of `main` once `PlayerProcessor player;` is constructed:
every effect object that will be made is a `BiquadFilter` as its constructor
leaves it. -/
def Machine.initial {R : Type} [Field R] (N : Numerics R) : Machine R :=
  { objects := fun _ => BiquadFilter.new N, player := PlayerProcessor.new }

/-! ## Devices of the proofs

Nothing below is program text: these are the invariants and the one-channel
view of the filter that the proofs go through. -/

open BiquadFilter

variable {R : Type}

/-- The stored coefficients are the ones `calculateCoefficients` gives for the
stored parameters. -/
def Consistent [Field R] (N : Numerics R) (f : BiquadFilter R) : Prop :=
  calculateCoefficients N f = f

/-- The six coefficient members of a filter. -/
structure Coefficients (R : Type) where
  b0 : R
  b1 : R
  b2 : R
  a0 : R
  a1 : R
  a2 : R

/-- One channel's entries of the four state vectors. -/
structure DelayLine (R : Type) where
  x1 : R
  x2 : R
  y1 : R
  y2 : R

/-- The coefficients a filter holds. -/
def BiquadFilter.coefficients (f : BiquadFilter R) : Coefficients R :=
  ⟨f.b0, f.b1, f.b2, f.a0, f.a1, f.a2⟩

/-- The entries `x1[ch]`, `x2[ch]`, `y1[ch]`, `y2[ch]` of a filter. -/
def BiquadFilter.tapsAt [Zero R] (f : BiquadFilter R) (ch : Nat) : DelayLine R :=
  ⟨f.x1.getD ch 0, f.x2.getD ch 0, f.y1.getD ch 0, f.y2.getD ch 0⟩

/-- The filter with the entries of channel `ch` replaced. -/
def BiquadFilter.withTaps (f : BiquadFilter R) (ch : Nat) (t : DelayLine R) : BiquadFilter R :=
  { f with x1 := f.x1.set ch t.x1, x2 := f.x2.set ch t.x2,
           y1 := f.y1.set ch t.y1, y2 := f.y2.set ch t.y2 }

/-- What lines 27-34 of `effect.cpp` do to the entries of the channel at hand. -/
def stepDelay [Field R] (c : Coefficients R) (t : DelayLine R) (input : R) : DelayLine R :=
  ⟨input, t.x1,
    (c.b0 * input + c.b1 * t.x1 + c.b2 * t.x2 - c.a1 * t.y1 - c.a2 * t.y2) / c.a0, t.y1⟩

/-- The entries of one channel after a run of samples, and the `double` outputs
of the run (before they are narrowed). -/
def runDelay [Field R] (c : Coefficients R) : DelayLine R → List R → DelayLine R × List R
  | t, [] => (t, [])
  | t, input :: rest =>
      let r := runDelay c (stepDelay c t input) rest
      (r.1, (stepDelay c t input).y1 :: r.2)

/-- The four state vectors all have `n` entries. -/
def SameLengths (f : BiquadFilter R) (n : Nat) : Prop :=
  f.x1.length = n ∧ f.x2.length = n ∧ f.y1.length = n ∧ f.y2.length = n

/-- A `Numerics` over `ℚ`, for evaluating the definitions on concrete inputs:
`sin x` and `cos x` are replaced by their small-angle values `x` and `1`. -/
def testNumerics : Numerics ℚ :=
  { pi := 22 / 7, sin := fun x => x, cos := fun _ => 1, narrow := id }

/-- The call `effect->processingBlock(buffer)` on the effect object at address
`effect`, in a program state. -/
def callProcessingBlock [Field R] (N : Numerics R) (s : Machine R × AudioBuffer R)
    (effect : Nat) : Machine R × AudioBuffer R :=
  let r := BiquadFilter.processingBlock N (s.1.objects effect) s.2
  ({ s.1 with objects := Function.update s.1.objects effect r.1 }, r.2)

/-- Every entry of the four state vectors of a filter is zero. -/
def DelayLinesZero [Zero R] (f : BiquadFilter R) : Prop :=
  (∀ v ∈ f.x1, v = 0) ∧ (∀ v ∈ f.x2, v = 0) ∧ (∀ v ∈ f.y1, v = 0) ∧ (∀ v ∈ f.y2, v = 0)

/-- Two filter states agree on the parameters and on the six coefficients; only
the state vectors may differ. -/
def SameSettings (f g : BiquadFilter R) : Prop :=
  f.filterType = g.filterType ∧ f.frequency = g.frequency ∧ f.q = g.q ∧ f.gain = g.gain ∧
  f.sampleRate = g.sampleRate ∧ f.b0 = g.b0 ∧ f.b1 = g.b1 ∧ f.b2 = g.b2 ∧
  f.a0 = g.a0 ∧ f.a1 = g.a1 ∧ f.a2 = g.a2

/-- One call of a public member function of `BiquadFilter`. -/
inductive FilterOp (R : Type) where
  | processingBlock (buffer : AudioBuffer R)
  | resetState
  | setSampleRate (sampleRate : R)
  | setType (type : FilterType)
  | setFrequency (frequency : R)
  | setQ (q : R)
  | setGain (gain : R)

/-- The filter after one call. -/
def FilterOp.apply [Field R] [DecidableEq R] (N : Numerics R) (f : BiquadFilter R) :
    FilterOp R → BiquadFilter R
  | FilterOp.processingBlock buffer => (BiquadFilter.processingBlock N f buffer).1
  | FilterOp.resetState => BiquadFilter.resetState f
  | FilterOp.setSampleRate sampleRate => BiquadFilter.setSampleRate N f sampleRate
  | FilterOp.setType type => BiquadFilter.setType N f type
  | FilterOp.setFrequency frequency => BiquadFilter.setFrequency N f frequency
  | FilterOp.setQ q => BiquadFilter.setQ N f q
  | FilterOp.setGain gain => BiquadFilter.setGain N f gain

/-- The calls that hand the filter a parameter. -/
def FilterOp.isSetter : FilterOp R → Bool
  | FilterOp.processingBlock _ => false
  | FilterOp.resetState => false
  | _ => true

/-- The invariant of the class: coefficients computed from the parameters, four
state vectors of one length. -/
def WellFormed [Field R] (N : Numerics R) (f : BiquadFilter R) : Prop :=
  Consistent N f ∧ f.x2.length = f.x1.length ∧ f.y1.length = f.x1.length ∧
    f.y2.length = f.x1.length

/-- A two-channel source of 88200 samples. -/
def exampleReader : AudioFormatReader := { lengthInSamples := 88200, numChannels := 2 }

/-- An audio callback for 44100 frames on two output channels, whose read
succeeds. -/
def exampleCall : CallbackArgs ℚ :=
  { outputChannelData := [some (List.replicate 44100 1), some (List.replicate 44100 1)],
    numSamples := 44100, fresh := fun _ _ => 0, readData := fun ch i => (ch + i : ℚ),
    readSuccess := true }

/-- The program state of `main` after `addEffect`, `load` of `exampleReader` and
`play`. -/
def examplePlaying : Machine ℚ :=
  (PlayerProcessor.play
    (PlayerProcessor.load true (some exampleReader) (fun _ _ => 0)
      (PlayerProcessor.addEffect testNumerics (some 0) (Machine.initial testNumerics))).1).1

/-- A short session: a source of four samples is loaded and played, and one
callback for two frames runs. -/
def exampleOps : List (Op ℚ) :=
  [Op.addEffect (some 0),
   Op.load true (some { lengthInSamples := 4, numChannels := 1 }) (fun _ _ => 0),
   Op.play,
   Op.audioDeviceIOCallback
     { outputChannelData := [some [7, 7]], numSamples := 2, fresh := fun _ _ => 0,
       readData := fun _ i => (i : ℚ), readSuccess := true }]

/-- A program state without a source whose chain holds a filter that has
processed a sample: the chain is filled by `addEffect` and the public
`PlayerProcessor::processingBlock` is called on a one-sample buffer. -/
def exampleUsedChain : Machine ℚ :=
  (PlayerProcessor.processingBlock testNumerics
    (PlayerProcessor.addEffect testNumerics (some 0) (Machine.initial testNumerics))
    { numSamples := 1, channels := [[1]] }).1

/-- A filter as constructed that has processed the one-sample buffer `[1]`; its
sample rate is the default 44100. -/
def exampleUsedFilter : BiquadFilter ℚ :=
  (BiquadFilter.processingBlock testNumerics (BiquadFilter.new testNumerics)
    { numSamples := 1, channels := [[1]] }).1

/-- The program state after `addEffect` and a `load` of a one-channel source of
four samples; `play()` has not been called. -/
def exampleLoaded : Machine ℚ :=
  (PlayerProcessor.load true (some { lengthInSamples := 4, numChannels := 1 }) (fun _ _ => 0)
    (PlayerProcessor.addEffect testNumerics (some 0) (Machine.initial testNumerics))).1

/-- The program state after a `load` of a one-channel source of four samples
with an empty chain; `play()` has not been called. -/
def exampleLoadedNoEffects : Machine ℚ :=
  (PlayerProcessor.load true (some { lengthInSamples := 4, numChannels := 1 }) (fun _ _ => 0)
    (Machine.initial testNumerics)).1

/-- An audio callback for two frames on one output channel; the source delivers
the sample 1 everywhere. -/
def exampleSmallCall : CallbackArgs ℚ :=
  { outputChannelData := [some [0, 0]], numSamples := 2, fresh := fun _ _ => 0,
    readData := fun _ _ => 1, readSuccess := true }

/-! # Theorems -/

theorem calculateCoefficients_eq [Field R] (N : Numerics R) (f : BiquadFilter R) :
    calculateCoefficients N f =
      { f with
        b0 := (1 - N.cos (2 * N.pi * f.frequency / f.sampleRate)) / 2,
        b1 := 1 - N.cos (2 * N.pi * f.frequency / f.sampleRate),
        b2 := (1 - N.cos (2 * N.pi * f.frequency / f.sampleRate)) / 2,
        a0 := 1 + N.sin (2 * N.pi * f.frequency / f.sampleRate) / (2 * f.q),
        a1 := -2 * N.cos (2 * N.pi * f.frequency / f.sampleRate),
        a2 := 1 - N.sin (2 * N.pi * f.frequency / f.sampleRate) / (2 * f.q) } := by
  cases h : f.filterType <;>
    simp [calculateCoefficients, runSwitch, switchLabels, caseBody, h]

theorem consistent_calculateCoefficients [Field R] (N : Numerics R) (f : BiquadFilter R) :
    Consistent N (calculateCoefficients N f) := by
  unfold Consistent
  rw [calculateCoefficients_eq N f, calculateCoefficients_eq]

theorem setType_eq [Field R] (N : Numerics R) (f : BiquadFilter R) (h : Consistent N f)
    (t : FilterType) : setType N f t = calculateCoefficients N { f with filterType := t } := by
  unfold setType
  split
  · rfl
  · rename_i h1
    have : t = f.filterType := by simpa using h1
    subst this
    exact h.symm

theorem setFrequency_eq [Field R] [DecidableEq R] (N : Numerics R) (f : BiquadFilter R)
    (h : Consistent N f) (v : R) :
    setFrequency N f v = calculateCoefficients N { f with frequency := v } := by
  unfold setFrequency
  split
  · rfl
  · rename_i h1
    have : v = f.frequency := by simpa using h1
    subst this
    exact h.symm

theorem setQ_eq [Field R] [DecidableEq R] (N : Numerics R) (f : BiquadFilter R)
    (h : Consistent N f) (v : R) :
    setQ N f v = calculateCoefficients N { f with q := v } := by
  unfold setQ
  split
  · rfl
  · rename_i h1
    have : v = f.q := by simpa using h1
    subst this
    exact h.symm

theorem setGain_eq [Field R] [DecidableEq R] (N : Numerics R) (f : BiquadFilter R)
    (h : Consistent N f) (v : R) :
    setGain N f v = calculateCoefficients N { f with gain := v } := by
  unfold setGain
  split
  · rfl
  · rename_i h1
    have : v = f.gain := by simpa using h1
    subst this
    exact h.symm

/-- C1 (the code departs from the claim).  In exact real arithmetic, the filter
that `main.cpp` builds, `setType(HighPass)`, `setFrequency(120)`, `setQ(0.707)` at
44100 Hz, holds the LowPass row of the coefficient table in `b0`, `b1`, `b2`:
the `switch` of `calculateCoefficients` has no `break`, so the statements of
`case LowPass`, written last, run for every type.  Its `b1 = 1 − cos ω` is not
the HighPass row's `−(1 + cos ω)`. -/
theorem highPass_filter_gets_lowPass_row :
    let N : Numerics ℝ := ⟨Real.pi, Real.sin, Real.cos, id⟩
    let f := setQ N (setFrequency N (setType N (BiquadFilter.new N) FilterType.HighPass) 120) 0.707
    let cosw := Real.cos (2 * Real.pi * 120 / 44100)
    f.filterType = FilterType.HighPass ∧ f.frequency = 120 ∧ f.q = 0.707 ∧ f.sampleRate = 44100 ∧
    f.b0 = (1 - cosw) / 2 ∧ f.b1 = 1 - cosw ∧ f.b2 = (1 - cosw) / 2 ∧
    f.b1 ≠ -(1 + cosw) := by
  intro N f cosw
  have hf : f = calculateCoefficients N
      { filterType := FilterType.HighPass, frequency := 120, q := 0.707, gain := 0,
        sampleRate := 44100, b0 := 0, b1 := 0, b2 := 0, a0 := 0, a1 := 0, a2 := 0,
        x1 := [], x2 := [], y1 := [], y2 := [] } := by
    simp only [f, BiquadFilter.new]
    rw [setType_eq N _ (consistent_calculateCoefficients N _),
      setFrequency_eq N _ (consistent_calculateCoefficients N _),
      setQ_eq N _ (consistent_calculateCoefficients N _)]
    simp only [calculateCoefficients_eq]
  rw [hf, calculateCoefficients_eq]
  refine ⟨rfl, rfl, rfl, rfl, rfl, rfl, rfl, ?_⟩
  simp only
  intro h
  linarith

theorem list_set_getD_self (l : List R) (n : Nat) (d : R) : l.set n (l.getD n d) = l := by
  apply List.ext_getElem?
  intro i
  by_cases h : n = i
  · subst h
    by_cases hl : n < l.length
    · simp [List.getElem?_set, hl, List.getD_eq_getElem?_getD]
    · simp [List.getElem?_set, hl]
      omega
  · simp [List.getElem?_set, h]

theorem list_getD_set_self (l : List R) (n : Nat) (a d : R) (h : n < l.length) :
    (l.set n a).getD n d = a := by
  simp [List.getD_eq_getElem?_getD, List.getElem?_set, h]

theorem list_getD_set_ne (l : List R) (n m : Nat) (a d : R) (h : n ≠ m) :
    (l.set n a).getD m d = l.getD m d := by
  simp [List.getD_eq_getElem?_getD, List.getElem?_set, h]

theorem withTaps_tapsAt [Zero R] (f : BiquadFilter R) (ch : Nat) :
    f.withTaps ch (f.tapsAt ch) = f := by
  simp only [BiquadFilter.withTaps, BiquadFilter.tapsAt, list_set_getD_self]

theorem withTaps_withTaps (f : BiquadFilter R) (ch : Nat) (t u : DelayLine R) :
    (f.withTaps ch t).withTaps ch u = f.withTaps ch u := by
  simp [BiquadFilter.withTaps, List.set_set]

theorem tapsAt_withTaps [Zero R] (f : BiquadFilter R) (ch n : Nat) (t : DelayLine R)
    (h : SameLengths f n) (hch : ch < n) : (f.withTaps ch t).tapsAt ch = t := by
  obtain ⟨h1, h2, h3, h4⟩ := h
  simp only [BiquadFilter.withTaps, BiquadFilter.tapsAt]
  rw [list_getD_set_self _ _ _ _ (h1 ▸ hch), list_getD_set_self _ _ _ _ (h2 ▸ hch),
    list_getD_set_self _ _ _ _ (h3 ▸ hch), list_getD_set_self _ _ _ _ (h4 ▸ hch)]

theorem tapsAt_withTaps_ne [Zero R] (f : BiquadFilter R) (ch k : Nat) (t : DelayLine R)
    (h : ch ≠ k) : (f.withTaps ch t).tapsAt k = f.tapsAt k := by
  simp only [BiquadFilter.withTaps, BiquadFilter.tapsAt, list_getD_set_ne _ _ _ _ _ h]

theorem sameLengths_withTaps (f : BiquadFilter R) (ch n : Nat) (t : DelayLine R)
    (h : SameLengths f n) : SameLengths (f.withTaps ch t) n := by
  simpa [SameLengths, BiquadFilter.withTaps] using h

theorem processSample_eq [Field R] (N : Numerics R) (ch : Nat) (f : BiquadFilter R) (x : R) :
    processSample N ch f x =
      (f.withTaps ch (stepDelay f.coefficients (f.tapsAt ch) x),
        N.narrow (stepDelay f.coefficients (f.tapsAt ch) x).y1) := rfl

theorem processChannel_eq [Field R] (N : Numerics R) (ch n : Nat) (hch : ch < n) (xs : List R) :
    ∀ f : BiquadFilter R, SameLengths f n →
    processChannel N ch f xs =
      (f.withTaps ch (runDelay f.coefficients (f.tapsAt ch) xs).1,
        (runDelay f.coefficients (f.tapsAt ch) xs).2.map N.narrow) := by
  induction xs with
  | nil => intro f _; simp [processChannel, runDelay, withTaps_tapsAt]
  | cons x rest ih =>
    intro f hf
    simp only [processChannel, runDelay, processSample_eq]
    rw [ih _ (sameLengths_withTaps f ch n _ hf), tapsAt_withTaps f ch n _ hf hch,
      withTaps_withTaps]
    rfl

theorem coefficients_withTaps (f : BiquadFilter R) (ch : Nat) (t : DelayLine R) :
    (f.withTaps ch t).coefficients = f.coefficients := rfl

/-- The outer loop, channel by channel: output channel `j` and the delay line
of channel `k + j` are those of the one-channel run, the other delay lines
keep their values. -/
theorem processChannels_spec [Field R] (N : Numerics R) (n : Nat) (chans : List (List R)) :
    ∀ (k : Nat) (f : BiquadFilter R), SameLengths f n → k + chans.length ≤ n →
      SameLengths (processChannels N k f chans).1 n ∧
      (processChannels N k f chans).1.coefficients = f.coefficients ∧
      (processChannels N k f chans).2.length = chans.length ∧
      (∀ i, i < k ∨ k + chans.length ≤ i →
        (processChannels N k f chans).1.tapsAt i = f.tapsAt i) ∧
      (∀ j c, chans[j]? = some c →
        (processChannels N k f chans).2[j]? =
            some ((runDelay f.coefficients (f.tapsAt (k + j)) c).2.map N.narrow) ∧
        (processChannels N k f chans).1.tapsAt (k + j) =
            (runDelay f.coefficients (f.tapsAt (k + j)) c).1) := by
  induction chans with
  | nil =>
    intro k f hf _
    simp [processChannels, hf]
  | cons c rest ih =>
    intro k f hf hk
    simp only [List.length_cons] at hk
    have hch : k < n := by omega
    simp only [processChannels, processChannel_eq N k n hch c f hf]
    have hf1 := sameLengths_withTaps f k n (runDelay f.coefficients (f.tapsAt k) c).1 hf
    obtain ⟨h1, h2, h3, h4, h5⟩ := ih (k + 1) _ hf1 (by omega)
    refine ⟨h1, ?_, ?_, ?_, ?_⟩
    · rw [h2]; rfl
    · simp [h3]
    · intro i hi
      rw [h4 i (by simp only [List.length_cons] at hi; omega)]
      exact tapsAt_withTaps_ne f k i _ (by simp only [List.length_cons] at hi; omega)
    · intro j c1 hj
      cases j with
      | zero =>
        simp only [List.getElem?_cons_zero, Option.some.injEq] at hj
        subst hj
        refine ⟨by simp, ?_⟩
        have e := h4 k (by omega)
        rw [tapsAt_withTaps f k n _ hf hch] at e
        exact e
      | succ j =>
        simp only [List.getElem?_cons_succ] at hj
        obtain ⟨h6, h7⟩ := h5 j c1 hj
        have e : k + 1 + j = k + (j + 1) := by omega
        rw [e, coefficients_withTaps, tapsAt_withTaps_ne f k (k + (j + 1)) _ (by omega)] at h6 h7
        exact ⟨by simpa using h6, h7⟩

theorem runDelay_append [Field R] (c : Coefficients R) (xs ys : List R) :
    ∀ t : DelayLine R, runDelay c t (xs ++ ys) =
      ((runDelay c (runDelay c t xs).1 ys).1,
        (runDelay c t xs).2 ++ (runDelay c (runDelay c t xs).1 ys).2) := by
  induction xs with
  | nil => intro t; simp [runDelay]
  | cons x rest ih => intro t; simp [runDelay, ih]

theorem runDelay_length [Field R] (c : Coefficients R) (xs : List R) :
    ∀ t : DelayLine R, (runDelay c t xs).2.length = xs.length := by
  induction xs with
  | nil => intro t; simp [runDelay]
  | cons x rest ih => intro t; simp [runDelay, ih]

/-- The state after `i + 1` samples is one step from the state after `i`. -/
theorem runDelay_take_succ [Field R] (c : Coefficients R) (t : DelayLine R) (xs : List R)
    (i : Nat) (h : i < xs.length) :
    runDelay c t (xs.take (i + 1)) =
      (stepDelay c (runDelay c t (xs.take i)).1 xs[i],
        (runDelay c t (xs.take i)).2 ++ [(stepDelay c (runDelay c t (xs.take i)).1 xs[i]).y1]) := by
  rw [List.take_succ, List.getElem?_eq_getElem h, Option.toList, runDelay_append]
  simp [runDelay]

theorem runDelay_output [Field R] (c : Coefficients R) (t : DelayLine R) (xs : List R) :
    ∀ i, i < xs.length →
      (runDelay c t xs).2[i]? = some (runDelay c t (xs.take (i + 1))).1.y1 := by
  intro i h
  have e : xs = xs.take (i + 1) ++ xs.drop (i + 1) := (List.take_append_drop _ _).symm
  conv_lhs => rw [e, runDelay_append]
  have hl : i < (runDelay c t (xs.take (i + 1))).2.length := by
    rw [runDelay_length, List.length_take]; omega
  rw [List.getElem?_append_left hl, runDelay_take_succ c t xs i h]
  simp [runDelay_length, List.length_take, Nat.min_eq_left (Nat.le_of_lt h)]

theorem runDelay_difference_equation [Field R] (c : Coefficients R) (t : DelayLine R)
    (x : List R) :
    ∃ y : Int → R, y (-1) = t.y1 ∧ y (-2) = t.y2 ∧
      (∀ i : Nat, i < x.length →
        (runDelay c t x).2[i]? = some (y i)) ∧
      ∀ xe : Int → R, xe (-1) = t.x1 → xe (-2) = t.x2 →
        (∀ i : Nat, i < x.length → xe i = x.getD i 0) →
        (∀ i : Nat, i < x.length →
          y i = (c.b0 * xe i + c.b1 * xe (i - 1) + c.b2 * xe (i - 2)
                  - c.a1 * y (i - 1) - c.a2 * y (i - 2)) / c.a0) ∧
        (runDelay c t x).1 =
          ⟨xe ((x.length : Int) - 1), xe ((x.length : Int) - 2),
            y ((x.length : Int) - 1), y ((x.length : Int) - 2)⟩ := by
  let y : Int → R := fun i =>
    if i = -1 then t.y1 else if i = -2 then t.y2
    else (runDelay c t (x.take (i.toNat + 1))).1.y1
  have y_nat : ∀ i : Nat, y i = (runDelay c t (x.take (i + 1))).1.y1 := by
    intro i
    have h1 : ¬ ((i : Int) = -1) := by omega
    have h2 : ¬ ((i : Int) = -2) := by omega
    simp only [y, h1, h2, if_false, Int.toNat_ofNat]
  refine ⟨y, by simp [y], by simp [y], ?_, ?_⟩
  · intro i hi
    rw [y_nat]
    exact runDelay_output c t x i hi
  · intro xe hx1 hx2 hx
    have key : ∀ i : Nat, i ≤ x.length →
        (runDelay c t (x.take i)).1 =
          ⟨xe ((i : Int) - 1), xe ((i : Int) - 2), y ((i : Int) - 1), y ((i : Int) - 2)⟩ := by
      intro i
      induction i with
      | zero =>
        intro _
        simp [runDelay, hx1, hx2, y]
      | succ i ih =>
        intro hi
        have hi1 : i < x.length := by omega
        rw [runDelay_take_succ c t x i hi1, ih (by omega)]
        have e1 : ((i + 1 : Nat) : Int) - 1 = (i : Int) := by omega
        have e2 : ((i + 1 : Nat) : Int) - 2 = (i : Int) - 1 := by omega
        rw [e1, e2, y_nat i, runDelay_take_succ c t x i hi1, ih (by omega), hx i hi1]
        simp [stepDelay, List.getD_eq_getElem?_getD, List.getElem?_eq_getElem hi1]
    refine ⟨?_, ?_⟩
    · intro i hi
      rw [y_nat i, runDelay_take_succ c t x i hi, key i (by omega), hx i hi]
      simp [stepDelay, List.getD_eq_getElem?_getD, List.getElem?_eq_getElem hi]
    · have := key x.length (Nat.le_refl _)
      rwa [List.take_length] at this

theorem getD_resize [Zero R] (v : List R) (n ch : Nat) (h : ch < n) :
    (resize v n).getD ch 0 = v.getD ch 0 := by
  simp only [resize, List.getD_eq_getElem?_getD]
  by_cases hc : ch < v.length
  · rw [List.getElem?_append_left (by simp; omega)]
    simp [List.getElem?_take, h]
  · rw [List.getElem?_append_right (by simp; omega)]
    have : v[ch]? = none := List.getElem?_eq_none (by omega)
    simp only [this, List.getElem?_replicate]
    split <;> rfl

theorem length_resize [Zero R] (v : List R) (n : Nat) : (resize v n).length = n := by
  simp [resize]; omega

theorem ensureSize_spec [Zero R] (f : BiquadFilter R) (n : Nat)
    (hlen : f.x2.length = f.x1.length ∧ f.y1.length = f.x1.length ∧ f.y2.length = f.x1.length) :
    SameLengths (ensureSize f n) n ∧ (ensureSize f n).coefficients = f.coefficients ∧
      ∀ ch, ch < n → (ensureSize f n).tapsAt ch = f.tapsAt ch := by
  obtain ⟨h2, h3, h4⟩ := hlen
  unfold ensureSize
  split
  · refine ⟨⟨length_resize _ _, length_resize _ _, length_resize _ _, length_resize _ _⟩, rfl, ?_⟩
    intro ch hch
    simp only [BiquadFilter.tapsAt, getD_resize _ _ _ hch]
  · rename_i h
    have h1 : f.x1.length = n := by simpa using h
    exact ⟨⟨h1, by omega, by omega, by omega⟩, rfl, fun _ _ => rfl⟩

/-- C2.  Let the four state vectors of the filter have one length (the class
keeps them so), let `x` be the samples of channel `ch` of the buffer, and let
`xe` extend `x` by `xe (-1) = x1[ch]`, `xe (-2) = x2[ch]` as the filter holds them
on entry (zero for a channel the vectors did not have yet).  Then there is a
sequence `y` with `y (-1) = y1[ch]`, `y (-2) = y2[ch]` on entry and
`y i = (b0·xe i + b1·xe (i−1) + b2·xe (i−2) − a1·y (i−1) − a2·y (i−2)) / a0`
for every `i < n`, such that `processingBlock` writes `y i`, narrowed to `float`,
at every frame `i` of channel `ch`, and leaves
`(x1[ch], x2[ch], y1[ch], y2[ch]) = (xe (n−1), xe (n−2), y (n−1), y (n−2))`. -/
theorem processingBlock_difference_equation [Field R] (N : Numerics R) (f : BiquadFilter R)
    (buffer : AudioBuffer R) (ch : Nat) (x : List R)
    (hlen : f.x2.length = f.x1.length ∧ f.y1.length = f.x1.length ∧ f.y2.length = f.x1.length)
    (hx : buffer.channels[ch]? = some x) :
    let xe : Int → R := fun i =>
      if i = -1 then f.x1.getD ch 0 else if i = -2 then f.x2.getD ch 0 else x.getD i.toNat 0
    ∃ (y : Int → R) (out : List R),
      y (-1) = f.y1.getD ch 0 ∧ y (-2) = f.y2.getD ch 0 ∧
      (∀ i : Nat, i < x.length →
        y i = (f.b0 * xe i + f.b1 * xe (i - 1) + f.b2 * xe (i - 2)
                - f.a1 * y (i - 1) - f.a2 * y (i - 2)) / f.a0) ∧
      (processingBlock N f buffer).2.channels[ch]? = some out ∧ out.length = x.length ∧
      (∀ i : Nat, i < x.length → out[i]? = some (N.narrow (y i))) ∧
      (processingBlock N f buffer).1.x1.getD ch 0 = xe ((x.length : Int) - 1) ∧
      (processingBlock N f buffer).1.x2.getD ch 0 = xe ((x.length : Int) - 2) ∧
      (processingBlock N f buffer).1.y1.getD ch 0 = y ((x.length : Int) - 1) ∧
      (processingBlock N f buffer).1.y2.getD ch 0 = y ((x.length : Int) - 2) := by
  intro xe
  have hch : ch < buffer.channels.length := by
    by_contra h
    rw [List.getElem?_eq_none (by omega)] at hx
    exact Option.noConfusion hx
  obtain ⟨e1, e2, e3⟩ := ensureSize_spec f buffer.channels.length hlen
  obtain ⟨-, -, -, -, h5⟩ :=
    processChannels_spec N buffer.channels.length buffer.channels 0 _ e1 (by omega)
  obtain ⟨ho, ht⟩ := h5 ch x hx
  rw [Nat.zero_add, e2, e3 ch hch] at ho ht
  obtain ⟨y, hy1, hy2, hout, hrest⟩ := runDelay_difference_equation f.coefficients (f.tapsAt ch) x
  obtain ⟨hrec, hfin⟩ := hrest xe (by simp [xe, BiquadFilter.tapsAt])
    (by simp [xe, BiquadFilter.tapsAt])
    (by
      intro i _
      have h1 : ¬ ((i : Int) = -1) := by omega
      have h2 : ¬ ((i : Int) = -2) := by omega
      simp only [xe, h1, h2, if_false, Int.toNat_ofNat])
  rw [hfin] at ht
  have ht1 := congrArg DelayLine.x1 ht
  have ht2 := congrArg DelayLine.x2 ht
  have ht3 := congrArg DelayLine.y1 ht
  have ht4 := congrArg DelayLine.y2 ht
  refine ⟨y, _, hy1, hy2, hrec, ho, by simp [runDelay_length], ?_, ht1, ht2, ht3, ht4⟩
  intro i hi
  simp [hout i hi]

/-- C2 on a filter as constructed and the one-channel buffer `[1, 0]`. -/
theorem processingBlock_difference_equation_witness :
    let f : BiquadFilter ℚ := BiquadFilter.new testNumerics
    let x : List ℚ := [1, 0]
    let buffer : AudioBuffer ℚ := { numSamples := 2, channels := [x] }
    let xe : Int → ℚ := fun i =>
      if i = -1 then f.x1.getD 0 0 else if i = -2 then f.x2.getD 0 0 else x.getD i.toNat 0
    ∃ (y : Int → ℚ) (out : List ℚ),
      y (-1) = f.y1.getD 0 0 ∧ y (-2) = f.y2.getD 0 0 ∧
      (∀ i : Nat, i < x.length →
        y i = (f.b0 * xe i + f.b1 * xe (i - 1) + f.b2 * xe (i - 2)
                - f.a1 * y (i - 1) - f.a2 * y (i - 2)) / f.a0) ∧
      (processingBlock testNumerics f buffer).2.channels[0]? = some out ∧
      out.length = x.length ∧
      (∀ i : Nat, i < x.length → out[i]? = some (testNumerics.narrow (y i))) ∧
      (processingBlock testNumerics f buffer).1.x1.getD 0 0 = xe ((x.length : Int) - 1) ∧
      (processingBlock testNumerics f buffer).1.x2.getD 0 0 = xe ((x.length : Int) - 2) ∧
      (processingBlock testNumerics f buffer).1.y1.getD 0 0 = y ((x.length : Int) - 1) ∧
      (processingBlock testNumerics f buffer).1.y2.getD 0 0 = y ((x.length : Int) - 2) :=
  processingBlock_difference_equation testNumerics (BiquadFilter.new testNumerics)
    { numSamples := 2, channels := [[1, 0]] } 0 [1, 0] ⟨rfl, rfl, rfl⟩ rfl

theorem applyEach_eq_foldl [Field R] (N : Numerics R) (es : List Nat) :
    ∀ (m : Machine R) (buffer : AudioBuffer R),
      PlayerProcessor.applyEach N es m.objects buffer =
        ((es.foldl (callProcessingBlock N) (m, buffer)).1.objects,
          (es.foldl (callProcessingBlock N) (m, buffer)).2) ∧
      (es.foldl (callProcessingBlock N) (m, buffer)).1.player = m.player := by
  induction es with
  | nil => intro m buffer; exact ⟨rfl, rfl⟩
  | cons e rest ih =>
    intro m buffer
    simp only [PlayerProcessor.applyEach, List.foldl_cons]
    exact ih (callProcessingBlock N (m, buffer) e).1 (callProcessingBlock N (m, buffer) e).2

theorem effects_foldl_addEffect [Field R] [DecidableEq R] (N : Numerics R)
    (es : List (Option Nat)) :
    ∀ m : Machine R,
      (es.foldl (fun m e => PlayerProcessor.addEffect N e m) m).player.effects =
        m.player.effects ++ es.reduceOption := by
  induction es with
  | nil => intro m; simp
  | cons e rest ih =>
    intro m
    rw [List.foldl_cons, ih]
    cases e with
    | none => simp [PlayerProcessor.addEffect]
    | some a => simp [PlayerProcessor.addEffect, List.reduceOption_cons_of_some]

/-- The chain built by `addEffect` calls is run as the calls of its members, in
the order of the calls. -/
theorem processingBlock_of_added [Field R] [DecidableEq R] (N : Numerics R)
    (m : Machine R) (es : List (Option Nat)) (X : AudioBuffer R) :
    PlayerProcessor.processingBlock N
        (es.foldl (fun m e => PlayerProcessor.addEffect N e m) (PlayerProcessor.clearEffects m)) X =
      es.reduceOption.foldl (callProcessingBlock N)
        (es.foldl (fun m e => PlayerProcessor.addEffect N e m) (PlayerProcessor.clearEffects m),
          X) := by
  generalize hc : es.foldl (fun m e => PlayerProcessor.addEffect N e m)
    (PlayerProcessor.clearEffects m) = chain
  have he : chain.player.effects = es.reduceOption := by
    rw [← hc, effects_foldl_addEffect]
    simp [PlayerProcessor.clearEffects]
  obtain ⟨h2, h3⟩ := applyEach_eq_foldl N es.reduceOption chain X
  simp only [PlayerProcessor.processingBlock, he, h2]
  generalize es.reduceOption.foldl (callProcessingBlock N) (chain, X) = s at h3 ⊢
  obtain ⟨⟨o, p⟩, b⟩ := s
  simp only at h3
  subst h3
  rfl

/-- C3.  Let the chain be emptied and then filled by `addEffect` calls with the
pointers `es`, in that order (a null pointer among them is refused by
`addEffect`).  Then `PlayerProcessor::processingBlock(X)` is the succession of
the calls `e->processingBlock` for the non-null `e` of `es`, in the order of
insertion, each call working on the buffer and the effect objects the previous
call left.  For the chain `[A, B]` the result is `B` applied to `A` applied to
`X`. -/
theorem processingBlock_insertion_order [Field R] [DecidableEq R] (N : Numerics R)
    (m : Machine R) (es : List (Option Nat)) (A B : Nat) (X : AudioBuffer R) :
    PlayerProcessor.processingBlock N
        (es.foldl (fun m e => PlayerProcessor.addEffect N e m) (PlayerProcessor.clearEffects m)) X =
      es.reduceOption.foldl (callProcessingBlock N)
        (es.foldl (fun m e => PlayerProcessor.addEffect N e m) (PlayerProcessor.clearEffects m),
          X) ∧
    PlayerProcessor.processingBlock N
        (PlayerProcessor.addEffect N (some B)
          (PlayerProcessor.addEffect N (some A) (PlayerProcessor.clearEffects m))) X =
      callProcessingBlock N
        (callProcessingBlock N
          (PlayerProcessor.addEffect N (some B)
            (PlayerProcessor.addEffect N (some A) (PlayerProcessor.clearEffects m)), X) A) B :=
  ⟨processingBlock_of_added N m es X, processingBlock_of_added N m [some A, some B] X⟩

theorem samplesToRead_advance (p : PlayerProcessor R) (n : Nat)
    (h : p.currentPosition ≤ p.totalLength) (hk : 0 < PlayerProcessor.samplesToRead p n) :
    (p.currentPosition + (PlayerProcessor.samplesToRead p n).toNat) % 2 ^ 64 ≤ p.totalLength := by
  unfold PlayerProcessor.samplesToRead at hk ⊢
  split at hk
  · rename_i h1
    rw [if_pos h1]
    unfold castInt at hk ⊢
    split at hk
    · rename_i h2
      rw [if_pos h2]
      omega
    · omega
  · rename_i h1
    rw [if_neg h1]
    omega

theorem samplesToRead_exact (p : PlayerProcessor R) (n : Nat)
    (h : p.currentPosition + n ≤ p.totalLength) (h64 : p.totalLength < 2 ^ 64) :
    PlayerProcessor.samplesToRead p n = n := by
  unfold PlayerProcessor.samplesToRead
  rw [if_neg]
  omega

@[simp]
theorem resizeProcessBuffer_currentPosition (args : CallbackArgs R) (reader : AudioFormatReader)
    (p : PlayerProcessor R) :
    (PlayerProcessor.resizeProcessBuffer args reader p).currentPosition = p.currentPosition := by
  unfold PlayerProcessor.resizeProcessBuffer; split <;> rfl

@[simp]
theorem resizeProcessBuffer_totalLength (args : CallbackArgs R) (reader : AudioFormatReader)
    (p : PlayerProcessor R) :
    (PlayerProcessor.resizeProcessBuffer args reader p).totalLength = p.totalLength := by
  unfold PlayerProcessor.resizeProcessBuffer; split <;> rfl

@[simp]
theorem resizeProcessBuffer_reader (args : CallbackArgs R) (reader : AudioFormatReader)
    (p : PlayerProcessor R) :
    (PlayerProcessor.resizeProcessBuffer args reader p).reader = p.reader := by
  unfold PlayerProcessor.resizeProcessBuffer; split <;> rfl

@[simp]
theorem resizeProcessBuffer_effects (args : CallbackArgs R) (reader : AudioFormatReader)
    (p : PlayerProcessor R) :
    (PlayerProcessor.resizeProcessBuffer args reader p).effects = p.effects := by
  unfold PlayerProcessor.resizeProcessBuffer; split <;> rfl

@[simp]
theorem resizeProcessBuffer_isPlayingState (args : CallbackArgs R) (reader : AudioFormatReader)
    (p : PlayerProcessor R) :
    (PlayerProcessor.resizeProcessBuffer args reader p).isPlayingState = p.isPlayingState := by
  unfold PlayerProcessor.resizeProcessBuffer; split <;> rfl

@[simp]
theorem samplesToRead_resizeProcessBuffer (args : CallbackArgs R) (reader : AudioFormatReader)
    (p : PlayerProcessor R) (n : Nat) :
    PlayerProcessor.samplesToRead (PlayerProcessor.resizeProcessBuffer args reader p) n =
      PlayerProcessor.samplesToRead p n := by
  simp [PlayerProcessor.samplesToRead]

theorem resetState_resetState [Zero R] (f : BiquadFilter R) :
    resetState (resetState f) = resetState f := by
  simp [resetState]

theorem delayLinesZero_resetState [Zero R] (f : BiquadFilter R) :
    DelayLinesZero (resetState f) := by
  simp only [DelayLinesZero, resetState, List.mem_replicate]
  exact ⟨fun _ h => h.2, fun _ h => h.2, fun _ h => h.2, fun _ h => h.2⟩

theorem resetEach_apply [Zero R] (es : List Nat) :
    ∀ (objects : Nat → BiquadFilter R) (e : Nat),
      PlayerProcessor.resetEach es objects e =
        if e ∈ es then resetState (objects e) else objects e := by
  induction es with
  | nil => intro objects e; simp [PlayerProcessor.resetEach]
  | cons a rest ih =>
    intro objects e
    rw [PlayerProcessor.resetEach, ih]
    by_cases hea : e = a
    · subst hea
      simp [resetState_resetState]
    · simp [Function.update_noteq hea, hea]

theorem resetAllEffects_zero [Zero R] (m : Machine R) :
    ∀ e ∈ m.player.effects, DelayLinesZero ((PlayerProcessor.resetAllEffects m).objects e) := by
  intro e he
  simp only [PlayerProcessor.resetAllEffects, resetEach_apply, he, if_true]
  exact delayLinesZero_resetState _

theorem callback_outcome [Field R] (N : Numerics R) (args : CallbackArgs R) (m : Machine R)
    (r : Machine R × List (Option (List R)))
    (h : PlayerProcessor.audioDeviceIOCallback N args m = some r) :
    r.1.player.reader = m.player.reader ∧ r.1.player.totalLength = m.player.totalLength ∧
    r.1.player.effects = m.player.effects ∧
    ((r.1.player.currentPosition = m.player.currentPosition ∧
        r.1.player.isPlayingState = m.player.isPlayingState ∧ r.1.objects = m.objects ∧
        (PlayerProcessor.samplesToRead m.player args.numSamples ≤ 0 ∨ args.readSuccess = false)) ∨
      (0 < PlayerProcessor.samplesToRead m.player args.numSamples ∧ args.readSuccess = true ∧
        ((m.player.currentPosition
              + (PlayerProcessor.samplesToRead m.player args.numSamples).toNat) % 2 ^ 64
            < m.player.totalLength ∧
          r.1.player.currentPosition = (m.player.currentPosition
              + (PlayerProcessor.samplesToRead m.player args.numSamples).toNat) % 2 ^ 64 ∧
          r.1.player.isPlayingState = m.player.isPlayingState ∨
        m.player.totalLength ≤ (m.player.currentPosition
              + (PlayerProcessor.samplesToRead m.player args.numSamples).toNat) % 2 ^ 64 ∧
          r.1.player.currentPosition = 0 ∧ r.1.player.isPlayingState = false ∧
          ∀ e ∈ m.player.effects, DelayLinesZero (r.1.objects e)))) := by
  unfold PlayerProcessor.audioDeviceIOCallback at h
  cases hr : m.player.reader with
  | none => simp [hr] at h
  | some reader =>
    simp only [hr, samplesToRead_resizeProcessBuffer] at h
    by_cases hc : 0 < PlayerProcessor.samplesToRead m.player args.numSamples
    · simp only [gt_iff_lt, hc, if_true] at h
      cases hs : args.readSuccess with
      | false =>
        simp only [hs, Bool.not_false, if_true, Option.some.injEq] at h
        subst h
        simp [PlayerProcessor.readBlock, hr]
      | true =>
        simp only [hs, Bool.not_true, Bool.false_eq_true, if_false] at h
        split at h
        · exact Option.noConfusion h
        · simp only [Option.some.injEq] at h
          subst h
          refine ⟨?_, ?_, ?_, Or.inr ⟨hc, rfl, ?_⟩⟩
          · unfold PlayerProcessor.stopAtEnd
            split <;> simp [PlayerProcessor.resetAllEffects, PlayerProcessor.processingBlock,
              PlayerProcessor.readBlock, hr]
          · unfold PlayerProcessor.stopAtEnd
            split <;> simp [PlayerProcessor.resetAllEffects, PlayerProcessor.processingBlock,
              PlayerProcessor.readBlock]
          · unfold PlayerProcessor.stopAtEnd
            split <;> simp [PlayerProcessor.resetAllEffects, PlayerProcessor.processingBlock,
              PlayerProcessor.readBlock]
          · unfold PlayerProcessor.stopAtEnd
            split
            · rename_i hge
              refine Or.inr ⟨?_, rfl, rfl, ?_⟩
              · simpa [PlayerProcessor.processingBlock, PlayerProcessor.readBlock] using hge
              · intro e he
                apply resetAllEffects_zero
                simpa [PlayerProcessor.processingBlock, PlayerProcessor.readBlock] using he
            · rename_i hge
              refine Or.inl ⟨?_, ?_, ?_⟩
              · simpa [PlayerProcessor.processingBlock, PlayerProcessor.readBlock] using hge
              · simp [PlayerProcessor.processingBlock, PlayerProcessor.readBlock]
              · simp [PlayerProcessor.processingBlock, PlayerProcessor.readBlock]
    · simp only [gt_iff_lt, hc, if_false, Option.some.injEq] at h
      subst h
      simp only [resizeProcessBuffer_reader, resizeProcessBuffer_totalLength,
        resizeProcessBuffer_effects, resizeProcessBuffer_currentPosition,
        resizeProcessBuffer_isPlayingState, hr, true_and]
      exact Or.inl (Or.inl (Int.not_lt.mp hc))

theorem load_missing [Zero R] (created : Option AudioFormatReader) (fresh : Nat → Nat → R)
    (m : Machine R) : PlayerProcessor.load false created fresh m = (m, false) := rfl

theorem load_unsupported [Zero R] (fresh : Nat → Nat → R) (m : Machine R) :
    PlayerProcessor.load true none fresh m =
      ({ m with player := { m.player with reader := none } }, false) := rfl

theorem load_success [Zero R] (reader : AudioFormatReader) (fresh : Nat → Nat → R)
    (m : Machine R) :
    PlayerProcessor.load true (some reader) fresh m =
      (PlayerProcessor.resetAllEffects
        { m with player := { m.player with
            reader := some reader, totalLength := reader.lengthInSamples % 2 ^ 64,
            currentPosition := 0,
            processBuffer :=
              AudioBuffer.setSize fresh reader.numChannels m.player.currentBufferSize } },
        true) := rfl

theorem step_position [Field R] [DecidableEq R] (N : Numerics R) (m m1 : Machine R) (op : Op R)
    (h : step N m op = some m1) (hinv : m.player.currentPosition ≤ m.player.totalLength) :
    m1.player.currentPosition ≤ m1.player.totalLength := by
  cases op with
  | audioDeviceIOCallback args =>
    simp only [step, Option.map_eq_some'] at h
    obtain ⟨r, hr, rfl⟩ := h
    obtain ⟨-, h2, -, h4⟩ := callback_outcome N args m r hr
    rcases h4 with ⟨h5, -⟩ | ⟨hk, -, ⟨h6, h7, -⟩ | ⟨-, h7, -⟩⟩
    · omega
    · omega
    · omega
  | load existsAsFile created fresh =>
    simp only [step, Option.some.injEq] at h
    subst h
    cases existsAsFile with
    | false => exact hinv
    | true =>
      cases created with
      | none => exact hinv
      | some reader => exact Nat.zero_le _
  | seek sample =>
    simp only [step, Option.some.injEq] at h
    subst h
    unfold PlayerProcessor.seek
    split
    · rename_i hs
      simp only [PlayerProcessor.resetAllEffects]
      omega
    · exact hinv
  | stop =>
    simp only [step, Option.some.injEq] at h
    subst h
    unfold PlayerProcessor.stop
    split
    · simp [PlayerProcessor.resetAllEffects]
    · exact hinv
  | play =>
    simp only [step, Option.some.injEq] at h
    subst h
    unfold PlayerProcessor.play
    split <;> exact hinv
  | pause =>
    simp only [step, Option.some.injEq] at h
    subst h
    unfold PlayerProcessor.pause
    split <;> exact hinv
  | addEffect effect =>
    simp only [step, Option.some.injEq] at h
    subst h
    cases effect <;> exact hinv
  | audioDeviceAboutToStart device fresh =>
    simp only [step, Option.some.injEq] at h
    subst h
    cases device <;> exact hinv
  | _ =>
    simp only [step, Option.some.injEq] at h
    subst h
    exact hinv

theorem run_position [Field R] [DecidableEq R] (N : Numerics R) (ops : List (Op R)) :
    ∀ m m1 : Machine R, run N m ops = some m1 →
      m.player.currentPosition ≤ m.player.totalLength →
      m1.player.currentPosition ≤ m1.player.totalLength := by
  induction ops with
  | nil =>
    intro m m1 h hinv
    simp only [run, Option.some.injEq] at h
    subst h
    exact hinv
  | cons op rest ih =>
    intro m m1 h hinv
    simp only [run] at h
    cases hs : step N m op with
    | none => simp [hs] at h
    | some m2 =>
      simp only [hs] at h
      exact ih m2 m1 h (step_position N m m2 op hs hinv)

/-- The calls of `exampleOps` all have a defined outcome. -/
theorem exampleOps_isSome :
    (run testNumerics (Machine.initial testNumerics) exampleOps).isSome = true := by
  rfl

/-- C4.  In every program state reached from construction by a sequence of calls
(`load` with any outcome, `play`, `pause`, `stop`, `seek`, audio callbacks with
any frame count and any read outcome, and the chain and device calls besides),
`0 ≤ currentPosition ≤ totalLength`. -/
theorem position_within_totalLength [Field R] [DecidableEq R] (N : Numerics R)
    (ops : List (Op R)) (m : Machine R) (h : run N (Machine.initial N) ops = some m) :
    0 ≤ m.player.currentPosition ∧ m.player.currentPosition ≤ m.player.totalLength :=
  ⟨Nat.zero_le _, run_position N ops _ m h (Nat.le_refl 0)⟩

/-- C4 on the state that `exampleOps` reaches. -/
theorem position_within_totalLength_witness :
    0 ≤ ((run testNumerics (Machine.initial testNumerics) exampleOps).get
          exampleOps_isSome).player.currentPosition ∧
    ((run testNumerics (Machine.initial testNumerics) exampleOps).get
          exampleOps_isSome).player.currentPosition ≤
      ((run testNumerics (Machine.initial testNumerics) exampleOps).get
          exampleOps_isSome).player.totalLength :=
  position_within_totalLength testNumerics exampleOps _
    (Option.some_get exampleOps_isSome).symm

theorem length_readInto (readData : Nat → Nat → R) (count : Nat) (chans : List (List R)) :
    ∀ ch, (AudioBuffer.readInto readData count ch chans).length = chans.length := by
  induction chans with
  | nil => intro ch; rfl
  | cons c rest ih => intro ch; simp [AudioBuffer.readInto, ih]

theorem length_processChannels [Field R] (N : Numerics R) (chans : List (List R)) :
    ∀ (k : Nat) (f : BiquadFilter R), (processChannels N k f chans).2.length = chans.length := by
  induction chans with
  | nil => intro k f; rfl
  | cons c rest ih => intro k f; simp [processChannels, ih]

theorem applyEach_channels_length [Field R] (N : Numerics R) (es : List Nat) :
    ∀ (objects : Nat → BiquadFilter R) (buffer : AudioBuffer R),
      (PlayerProcessor.applyEach N es objects buffer).2.channels.length =
        buffer.channels.length := by
  induction es with
  | nil => intro objects buffer; rfl
  | cons e rest ih =>
    intro objects buffer
    rw [PlayerProcessor.applyEach, ih]
    simp [BiquadFilter.processingBlock, length_processChannels]

theorem copyOutputs_isSome (pb : AudioBuffer R) (count : Nat) (h : 0 < pb.channels.length)
    (out : List (Option (List R))) :
    ∀ ch, ∃ res, PlayerProcessor.copyOutputs pb count ch out = some res := by
  induction out with
  | nil => intro ch; exact ⟨[], rfl⟩
  | cons o rest ih =>
    intro ch
    obtain ⟨res, hres⟩ := ih (ch + 1)
    cases o with
    | none => exact ⟨none :: res, by simp [PlayerProcessor.copyOutputs, hres]⟩
    | some dest =>
      have hsrc : ∃ src, pb.getReadPointer (min (ch : Int) ((pb.channels.length : Int) - 1))
          = some src := by
        unfold AudioBuffer.getReadPointer
        rw [if_pos (by omega)]
        have hlt : (min (ch : Int) ((pb.channels.length : Int) - 1)).toNat < pb.channels.length := by
          omega
        exact ⟨_, List.getElem?_eq_getElem hlt⟩
      obtain ⟨src, hsrc⟩ := hsrc
      exact ⟨some (copy dest src count) :: res, by simp [PlayerProcessor.copyOutputs, hsrc, hres]⟩

theorem resizeProcessBuffer_channels (args : CallbackArgs R) (reader : AudioFormatReader)
    (p : PlayerProcessor R) :
    (PlayerProcessor.resizeProcessBuffer args reader p).processBuffer.channels.length =
      reader.numChannels := by
  unfold PlayerProcessor.resizeProcessBuffer
  split
  · simp [AudioBuffer.setSize]
  · rename_i h
    simp only [not_or, not_not] at h
    exact h.2

theorem callback_isSome [Field R] (N : Numerics R) (args : CallbackArgs R) (m : Machine R)
    (reader : AudioFormatReader) (hr : m.player.reader = some reader)
    (hM : 0 < reader.numChannels) :
    ∃ r, PlayerProcessor.audioDeviceIOCallback N args m = some r := by
  unfold PlayerProcessor.audioDeviceIOCallback
  simp only [hr]
  split
  · split
    · exact ⟨_, rfl⟩
    · rename_i hc hs
      have hlen : 0 < (PlayerProcessor.applyEach N m.player.effects m.objects
          (PlayerProcessor.readBlock args
            (PlayerProcessor.samplesToRead
              (PlayerProcessor.resizeProcessBuffer args reader m.player) args.numSamples).toNat
            (PlayerProcessor.resizeProcessBuffer args reader m.player)).processBuffer).2.channels.length := by
        rw [applyEach_channels_length]
        simp only [PlayerProcessor.readBlock, length_readInto, resizeProcessBuffer_channels]
        exact hM
      obtain ⟨res, hres⟩ := copyOutputs_isSome _
        (PlayerProcessor.samplesToRead
          (PlayerProcessor.resizeProcessBuffer args reader m.player) args.numSamples).toNat hlen
        (PlayerProcessor.clearOutputs args.outputChannelData args.numSamples) 0
      simp only [PlayerProcessor.processingBlock, PlayerProcessor.readBlock,
        resizeProcessBuffer_effects] at hres ⊢
      rw [hres]
      exact ⟨_, rfl⟩
  · exact ⟨_, rfl⟩

theorem run_callbacks_to_end [Field R] [DecidableEq R] (N : Numerics R)
    (reader : AudioFormatReader) (hM : 0 < reader.numChannels)
    (calls : List (CallbackArgs R)) :
    ∀ m : Machine R, m.player.reader = some reader → m.player.totalLength < 2 ^ 64 →
      (∀ a ∈ calls, a.readSuccess = true) →
      (m.player.currentPosition < m.player.totalLength ∧
          m.player.currentPosition + (calls.map fun a => a.numSamples).sum
            = m.player.totalLength ∨
        (calls.map fun a => a.numSamples).sum = 0 ∧ m.player.isPlayingState = false ∧
          m.player.currentPosition = 0 ∧
          ∀ e ∈ m.player.effects, DelayLinesZero (m.objects e)) →
      ∃ m1, run N m (calls.map Op.audioDeviceIOCallback) = some m1 ∧
        m1.player.isPlayingState = false ∧ m1.player.currentPosition = 0 ∧
        ∀ e ∈ m1.player.effects, DelayLinesZero (m1.objects e) := by
  induction calls with
  | nil =>
    intro m _ _ _ h
    rcases h with ⟨h1, h2⟩ | ⟨-, h2, h3, h4⟩
    · simp at h2; omega
    · exact ⟨m, rfl, h2, h3, h4⟩
  | cons a rest ih =>
    intro m hr h64 hreads h
    obtain ⟨r, hcb⟩ := callback_isSome N a m reader hr hM
    obtain ⟨o1, o2, o3, o4⟩ := callback_outcome N a m r hcb
    have hrun : run N m ((a :: rest).map Op.audioDeviceIOCallback) =
        run N r.1 (rest.map Op.audioDeviceIOCallback) := by
      simp [run, step, hcb]
    rw [hrun]
    have hsucc : a.readSuccess = true := hreads a (List.mem_cons_self _ _)
    have hreads1 : ∀ b ∈ rest, b.readSuccess = true :=
      fun b hb => hreads b (List.mem_cons_of_mem _ hb)
    simp only [List.map_cons, List.sum_cons] at h
    apply ih r.1 (o1.trans hr) (by omega) hreads1
    rcases h with ⟨h1, h2⟩ | ⟨h1, h2, h3, h4⟩
    · have hk : PlayerProcessor.samplesToRead m.player a.numSamples = a.numSamples :=
        samplesToRead_exact m.player a.numSamples (by omega) h64
      rw [hk] at o4
      rcases o4 with ⟨p1, -, -, p4⟩ | ⟨-, -, ⟨q1, q2, -⟩ | ⟨q1, q2, q3, q4⟩⟩
      · rcases p4 with p4 | p4
        · left; omega
        · rw [hsucc] at p4; exact Bool.noConfusion p4
      · left
        simp only [Int.toNat_ofNat] at q1 q2
        omega
      · right
        simp only [Int.toNat_ofNat] at q1
        refine ⟨by omega, q3, q2, ?_⟩
        rw [o3]
        exact q4
    · have hk : PlayerProcessor.samplesToRead m.player a.numSamples = a.numSamples :=
        samplesToRead_exact m.player a.numSamples (by omega) h64
      rw [hk] at o4
      rcases o4 with ⟨p1, p2, p3, -⟩ | ⟨q0, -⟩
      · right
        refine ⟨by omega, p2.trans h2, p1.trans h3, ?_⟩
        rw [o3, p3]
        exact h4
      · omega

/-- C5.  Let a source of `L` samples, `0 < L < 2^64`, with at least one channel
be loaded and let `play()` then succeed.  If the audio callback runs once for
every frame count of a list whose sum is `L`, every read succeeding, then all
these calls have a defined outcome and afterwards `isPlayingState` is false,
`currentPosition` is 0 and every entry of the state vectors of every effect in
the chain is zero. -/
theorem playback_stops_at_end [Field R] [DecidableEq R] (N : Numerics R) (m : Machine R)
    (reader : AudioFormatReader) (fresh : Nat → Nat → R) (calls : List (CallbackArgs R))
    (hL : 0 < reader.lengthInSamples) (h64 : reader.lengthInSamples < 2 ^ 64)
    (hM : 0 < reader.numChannels)
    (hplay : (PlayerProcessor.play (PlayerProcessor.load true (some reader) fresh m).1).2 = true)
    (hreads : ∀ a ∈ calls, a.readSuccess = true)
    (hsum : (calls.map fun a => a.numSamples).sum = reader.lengthInSamples) :
    (PlayerProcessor.load true (some reader) fresh m).2 = true ∧
    ∃ m1, run N (PlayerProcessor.play (PlayerProcessor.load true (some reader) fresh m).1).1
          (calls.map Op.audioDeviceIOCallback) = some m1 ∧
      m1.player.isPlayingState = false ∧ m1.player.currentPosition = 0 ∧
      ∀ e ∈ m1.player.effects, DelayLinesZero (m1.objects e) := by
  refine ⟨rfl, ?_⟩
  have hp : (PlayerProcessor.play (PlayerProcessor.load true (some reader) fresh m).1).1.player =
      { (PlayerProcessor.load true (some reader) fresh m).1.player with
        isPlayingState := true } := by
    unfold PlayerProcessor.play at hplay ⊢
    split
    · rfl
    · rename_i hn
      rw [if_neg hn] at hplay
      exact Bool.noConfusion hplay
  have hmod : reader.lengthInSamples % 2 ^ 64 = reader.lengthInSamples := Nat.mod_eq_of_lt h64
  apply run_callbacks_to_end N reader hM calls
  · rw [hp]; rfl
  · rw [hp]; simp only [load_success, PlayerProcessor.resetAllEffects]; omega
  · exact hreads
  · left
    rw [hp]
    simp only [load_success, PlayerProcessor.resetAllEffects]
    omega

/-- C5 on the spec's instance: 88200 samples, 2 channels, two callbacks of 44100
frames. -/
theorem playback_stops_at_end_witness :
    (PlayerProcessor.load true (some exampleReader) (fun _ _ => 0)
      (PlayerProcessor.addEffect testNumerics (some 0) (Machine.initial testNumerics))).2 = true ∧
    ∃ m1, run testNumerics examplePlaying
          ([exampleCall, exampleCall].map Op.audioDeviceIOCallback) = some m1 ∧
      m1.player.isPlayingState = false ∧ m1.player.currentPosition = 0 ∧
      ∀ e ∈ m1.player.effects, DelayLinesZero (m1.objects e) :=
  playback_stops_at_end testNumerics
    (PlayerProcessor.addEffect testNumerics (some 0) (Machine.initial testNumerics))
    exampleReader (fun _ _ => 0) [exampleCall, exampleCall]
    (by decide) (by decide) (by decide) rfl
    (by intro a ha; simp at ha; subst ha; rfl) rfl

theorem sameSettings_refl (f : BiquadFilter R) : SameSettings f f :=
  ⟨rfl, rfl, rfl, rfl, rfl, rfl, rfl, rfl, rfl, rfl, rfl⟩

theorem sameSettings_resetState [Zero R] (f : BiquadFilter R) :
    SameSettings (resetState f) f :=
  ⟨rfl, rfl, rfl, rfl, rfl, rfl, rfl, rfl, rfl, rfl, rfl⟩

theorem resetAllEffects_objects [Zero R] (m : Machine R) (e : Nat) :
    (PlayerProcessor.resetAllEffects m).objects e =
      if e ∈ m.player.effects then resetState (m.objects e) else m.objects e := by
  simp only [PlayerProcessor.resetAllEffects, resetEach_apply]

/-- C6.  With a source loaded and `s < totalLength`, `seek(s)` returns `s`, leaves
`currentPosition = s`, zeroes every entry of `x1`, `x2`, `y1`, `y2` of every filter
in the chain, and changes neither the playing flag, nor `totalLength`, nor the
chain, nor the parameters and coefficients of any filter. -/
theorem seek_in_range [Zero R] (m : Machine R) (s : Nat)
    (hr : m.player.reader ≠ none) (hs : s < m.player.totalLength) :
    (PlayerProcessor.seek s m).2 = s ∧
    (PlayerProcessor.seek s m).1.player.currentPosition = s ∧
    (∀ e ∈ m.player.effects, DelayLinesZero ((PlayerProcessor.seek s m).1.objects e)) ∧
    (PlayerProcessor.seek s m).1.player.isPlayingState = m.player.isPlayingState ∧
    (PlayerProcessor.seek s m).1.player.totalLength = m.player.totalLength ∧
    (PlayerProcessor.seek s m).1.player.effects = m.player.effects ∧
    ∀ e, SameSettings ((PlayerProcessor.seek s m).1.objects e) (m.objects e) := by
  have hsome : m.player.reader.isSome = true := by
    cases h : m.player.reader with
    | none => exact absurd h hr
    | some _ => rfl
  have he : PlayerProcessor.seek s m =
      (PlayerProcessor.resetAllEffects
        { m with player := { m.player with currentPosition := s } }, s) := by
    unfold PlayerProcessor.seek
    rw [if_pos ⟨hsome, hs⟩]
    rfl
  rw [he]
  refine ⟨rfl, rfl, ?_, rfl, rfl, rfl, ?_⟩
  · intro e hmem
    exact resetAllEffects_zero _ e hmem
  · intro e
    rw [resetAllEffects_objects]
    split
    · exact sameSettings_resetState _
    · exact sameSettings_refl _

/-- C6 on `seek(5)` in the playing state `examplePlaying`. -/
theorem seek_in_range_witness :
    (PlayerProcessor.seek 5 examplePlaying).2 = 5 ∧
    (PlayerProcessor.seek 5 examplePlaying).1.player.currentPosition = 5 ∧
    (∀ e ∈ examplePlaying.player.effects,
      DelayLinesZero ((PlayerProcessor.seek 5 examplePlaying).1.objects e)) ∧
    (PlayerProcessor.seek 5 examplePlaying).1.player.isPlayingState
      = examplePlaying.player.isPlayingState ∧
    (PlayerProcessor.seek 5 examplePlaying).1.player.totalLength
      = examplePlaying.player.totalLength ∧
    (PlayerProcessor.seek 5 examplePlaying).1.player.effects = examplePlaying.player.effects ∧
    ∀ e, SameSettings ((PlayerProcessor.seek 5 examplePlaying).1.objects e)
      (examplePlaying.objects e) :=
  seek_in_range examplePlaying 5 (by decide) (by decide)

/-- C7.  When `s ≥ totalLength` or no source is loaded, `seek(s)` returns the
position held before the call and leaves the whole program state (position,
`totalLength`, playing flag, every effect object) as it was. -/
theorem seek_out_of_range [Zero R] (m : Machine R) (s : Nat)
    (h : m.player.totalLength ≤ s ∨ m.player.reader = none) :
    PlayerProcessor.seek s m = (m, m.player.currentPosition) := by
  unfold PlayerProcessor.seek
  rw [if_neg]
  rintro ⟨h1, h2⟩
  rcases h with h | h
  · omega
  · rw [h] at h1
    exact Bool.noConfusion h1

/-- C7 on `seek(88200)` with a source of 88200 samples. -/
theorem seek_out_of_range_witness :
    PlayerProcessor.seek 88200 examplePlaying =
      (examplePlaying, examplePlaying.player.currentPosition) :=
  seek_out_of_range examplePlaying 88200 (Or.inl (by decide))

theorem consistent_of_sameSettings [Field R] (N : Numerics R) (f g : BiquadFilter R)
    (h : SameSettings f g) (hg : Consistent N g) : Consistent N f := by
  obtain ⟨h1, h2, h3, h4, h5, h6, h7, h8, h9, h10, h11⟩ := h
  unfold Consistent at hg ⊢
  rw [calculateCoefficients_eq] at hg ⊢
  obtain ⟨ft, fr, q, g1, sr, b0, b1, b2, a0, a1, a2, x1, x2, y1, y2⟩ := f
  obtain ⟨ft', fr', q', g1', sr', b0', b1', b2', a0', a1', a2', x1', x2', y1', y2'⟩ := g
  simp only at h1 h2 h3 h4 h5 h6 h7 h8 h9 h10 h11
  subst h1 h2 h3 h4 h5 h6 h7 h8 h9 h10 h11
  simp only [BiquadFilter.mk.injEq, true_and, and_true] at hg ⊢
  exact hg

theorem sameSettings_processSample [Field R] (N : Numerics R) (ch : Nat) (f : BiquadFilter R)
    (x : R) : SameSettings (processSample N ch f x).1 f :=
  ⟨rfl, rfl, rfl, rfl, rfl, rfl, rfl, rfl, rfl, rfl, rfl⟩

theorem sameSettings_trans {f g k : BiquadFilter R} (h1 : SameSettings f g)
    (h2 : SameSettings g k) : SameSettings f k := by
  obtain ⟨a1, a2, a3, a4, a5, a6, a7, a8, a9, a10, a11⟩ := h1
  obtain ⟨b1, b2, b3, b4, b5, b6, b7, b8, b9, b10, b11⟩ := h2
  exact ⟨a1.trans b1, a2.trans b2, a3.trans b3, a4.trans b4, a5.trans b5, a6.trans b6,
    a7.trans b7, a8.trans b8, a9.trans b9, a10.trans b10, a11.trans b11⟩

theorem sameSettings_processChannel [Field R] (N : Numerics R) (ch : Nat) (xs : List R) :
    ∀ f : BiquadFilter R, SameSettings (processChannel N ch f xs).1 f := by
  induction xs with
  | nil => intro f; exact sameSettings_refl f
  | cons x rest ih =>
    intro f
    exact sameSettings_trans (ih _) (sameSettings_processSample N ch f x)

theorem sameSettings_processChannels [Field R] (N : Numerics R) (chans : List (List R)) :
    ∀ (k : Nat) (f : BiquadFilter R), SameSettings (processChannels N k f chans).1 f := by
  induction chans with
  | nil => intro k f; exact sameSettings_refl f
  | cons c rest ih =>
    intro k f
    exact sameSettings_trans (ih _ _) (sameSettings_processChannel N k c f)

theorem sameSettings_ensureSize [Zero R] (f : BiquadFilter R) (n : Nat) :
    SameSettings (ensureSize f n) f := by
  unfold ensureSize
  split
  · exact ⟨rfl, rfl, rfl, rfl, rfl, rfl, rfl, rfl, rfl, rfl, rfl⟩
  · exact sameSettings_refl f

theorem sameSettings_processingBlock [Field R] (N : Numerics R) (f : BiquadFilter R)
    (buffer : AudioBuffer R) : SameSettings (BiquadFilter.processingBlock N f buffer).1 f :=
  sameSettings_trans (sameSettings_processChannels N _ _ _) (sameSettings_ensureSize f _)

theorem wellFormed_calculateCoefficients [Field R] (N : Numerics R) (f : BiquadFilter R)
    (h : f.x2.length = f.x1.length ∧ f.y1.length = f.x1.length ∧ f.y2.length = f.x1.length) :
    WellFormed N (calculateCoefficients N f) := by
  refine ⟨consistent_calculateCoefficients N f, ?_⟩
  rw [calculateCoefficients_eq]
  exact h

theorem wellFormed_resetState [Field R] (N : Numerics R) (f : BiquadFilter R)
    (h : WellFormed N f) : WellFormed N (resetState f) := by
  refine ⟨consistent_of_sameSettings N _ f (sameSettings_resetState f) h.1, ?_⟩
  obtain ⟨-, h2, h3, h4⟩ := h
  simp [resetState, h2, h3, h4]

theorem wellFormed_apply [Field R] [DecidableEq R] (N : Numerics R) (f : BiquadFilter R)
    (h : WellFormed N f) (op : FilterOp R) : WellFormed N (op.apply N f) := by
  cases op with
  | processingBlock buffer =>
    refine ⟨consistent_of_sameSettings N _ f (sameSettings_processingBlock N f buffer) h.1, ?_⟩
    obtain ⟨e1, -, -⟩ := ensureSize_spec f buffer.channels.length h.2
    obtain ⟨⟨l1, l2, l3, l4⟩, -⟩ :=
      processChannels_spec N buffer.channels.length buffer.channels 0 _ e1 (by omega)
    simp only [FilterOp.apply, BiquadFilter.processingBlock]
    omega
  | resetState => exact wellFormed_resetState N f h
  | setSampleRate v =>
    simp only [FilterOp.apply, setSampleRate]
    split
    · exact wellFormed_resetState N _ (wellFormed_calculateCoefficients N _ h.2)
    · exact h
  | setType v =>
    simp only [FilterOp.apply, setType_eq N f h.1]
    exact wellFormed_calculateCoefficients N _ h.2
  | setFrequency v =>
    simp only [FilterOp.apply, setFrequency_eq N f h.1]
    exact wellFormed_calculateCoefficients N _ h.2
  | setQ v =>
    simp only [FilterOp.apply, setQ_eq N f h.1]
    exact wellFormed_calculateCoefficients N _ h.2
  | setGain v =>
    simp only [FilterOp.apply, setGain_eq N f h.1]
    exact wellFormed_calculateCoefficients N _ h.2

theorem wellFormed_new [Field R] (N : Numerics R) : WellFormed N (BiquadFilter.new N) :=
  wellFormed_calculateCoefficients N _ ⟨rfl, rfl, rfl⟩

theorem wellFormed_foldl [Field R] [DecidableEq R] (N : Numerics R) (ops : List (FilterOp R)) :
    ∀ f : BiquadFilter R, WellFormed N f → WellFormed N (ops.foldl (FilterOp.apply N) f) := by
  induction ops with
  | nil => intro f h; exact h
  | cons op rest ih => intro f h; exact ih _ (wellFormed_apply N f h op)

/-- The state vectors stay empty under the setters. -/
theorem setters_keep_empty [Field R] [DecidableEq R] (N : Numerics R)
    (ops : List (FilterOp R)) :
    ∀ f : BiquadFilter R, (∀ op ∈ ops, op.isSetter = true) → f.x1 = [] →
      f.x2 = [] → f.y1 = [] → f.y2 = [] →
      (ops.foldl (FilterOp.apply N) f).x1 = [] ∧ (ops.foldl (FilterOp.apply N) f).x2 = [] ∧
      (ops.foldl (FilterOp.apply N) f).y1 = [] ∧ (ops.foldl (FilterOp.apply N) f).y2 = [] := by
  induction ops with
  | nil => intro f _ h1 h2 h3 h4; exact ⟨h1, h2, h3, h4⟩
  | cons op rest ih =>
    intro f hs h1 h2 h3 h4
    have hop := hs op (List.mem_cons_self _ _)
    have hrest : ∀ o ∈ rest, o.isSetter = true := fun o ho => hs o (List.mem_cons_of_mem _ ho)
    rw [List.foldl_cons]
    cases op with
    | processingBlock buffer => exact Bool.noConfusion hop
    | resetState => exact Bool.noConfusion hop
    | setSampleRate v =>
      apply ih _ hrest <;>
        (simp only [FilterOp.apply, setSampleRate]; split <;>
          simp [resetState, calculateCoefficients_eq, h1, h2, h3, h4])
    | setType v =>
      apply ih _ hrest <;>
        (simp only [FilterOp.apply, setType]; split <;>
          simp [calculateCoefficients_eq, h1, h2, h3, h4])
    | setFrequency v =>
      apply ih _ hrest <;>
        (simp only [FilterOp.apply, setFrequency]; split <;>
          simp [calculateCoefficients_eq, h1, h2, h3, h4])
    | setQ v =>
      apply ih _ hrest <;>
        (simp only [FilterOp.apply, setQ]; split <;>
          simp [calculateCoefficients_eq, h1, h2, h3, h4])
    | setGain v =>
      apply ih _ hrest <;>
        (simp only [FilterOp.apply, setGain]; split <;>
          simp [calculateCoefficients_eq, h1, h2, h3, h4])

theorem resize_replicate [Zero R] (p c : Nat) :
    resize (List.replicate p (0 : R)) c = List.replicate c 0 := by
  simp only [resize, List.take_replicate, List.length_replicate,
    List.append_replicate_replicate]
  congr 1
  omega

theorem sameSettings_of_consistent [Field R] (N : Numerics R) (f g : BiquadFilter R)
    (hf : Consistent N f) (hg : Consistent N g) (h1 : f.filterType = g.filterType)
    (h2 : f.frequency = g.frequency) (h3 : f.q = g.q) (h4 : f.gain = g.gain)
    (h5 : f.sampleRate = g.sampleRate) : SameSettings f g := by
  unfold Consistent at hf hg
  rw [calculateCoefficients_eq] at hf hg
  refine ⟨h1, h2, h3, h4, h5, ?_, ?_, ?_, ?_, ?_, ?_⟩
  · have a := congrArg BiquadFilter.b0 hf
    have b := congrArg BiquadFilter.b0 hg
    simp only at a b
    rw [← a, ← b, h2, h5]
  · have a := congrArg BiquadFilter.b1 hf
    have b := congrArg BiquadFilter.b1 hg
    simp only at a b
    rw [← a, ← b, h2, h5]
  · have a := congrArg BiquadFilter.b2 hf
    have b := congrArg BiquadFilter.b2 hg
    simp only at a b
    rw [← a, ← b, h2, h5]
  · have a := congrArg BiquadFilter.a0 hf
    have b := congrArg BiquadFilter.a0 hg
    simp only at a b
    rw [← a, ← b, h2, h3, h5]
  · have a := congrArg BiquadFilter.a1 hf
    have b := congrArg BiquadFilter.a1 hg
    simp only at a b
    rw [← a, ← b, h2, h5]
  · have a := congrArg BiquadFilter.a2 hf
    have b := congrArg BiquadFilter.a2 hg
    simp only at a b
    rw [← a, ← b, h2, h3, h5]

theorem ensureSize_resetState [Zero R] (f : BiquadFilter R) (c : Nat)
    (h : f.x2.length = f.x1.length ∧ f.y1.length = f.x1.length ∧ f.y2.length = f.x1.length) :
    ensureSize (resetState f) c =
      { f with x1 := List.replicate c 0, x2 := List.replicate c 0,
               y1 := List.replicate c 0, y2 := List.replicate c 0 } := by
  obtain ⟨h2, h3, h4⟩ := h
  unfold ensureSize
  split
  · simp [resetState, resize_replicate]
  · rename_i hc
    simp only [resetState, List.length_replicate, ne_eq, not_not] at hc
    simp [resetState, h2, h3, h4, hc]

theorem ensureSize_empty [Zero R] (g : BiquadFilter R) (c : Nat)
    (h1 : g.x1 = []) (h2 : g.x2 = []) (h3 : g.y1 = []) (h4 : g.y2 = []) :
    ensureSize g c =
      { g with x1 := List.replicate c 0, x2 := List.replicate c 0,
               y1 := List.replicate c 0, y2 := List.replicate c 0 } := by
  unfold ensureSize
  split
  · simp [resize, h1, h2, h3, h4]
  · rename_i hc
    simp only [h1, List.length_nil, ne_eq, not_not] at hc
    subst hc
    obtain ⟨ft, fr, q, g1, sr, b0, b1, b2, a0, a1, a2, x1, x2, y1, y2⟩ := g
    simp only at h1 h2 h3 h4
    subst h1 h2 h3 h4
    rfl

/-- C8.  Let `f` be a filter state reached from the constructor by any calls of
the public member functions, and `g` a freshly constructed filter that was given
the parameters of `f` through setter calls.  Then `resetState()` on `f` sets
every entry of `x1`, `x2`, `y1`, `y2` to zero, keeps their lengths and leaves
type, frequency, Q, gain, sample rate and the six coefficients unchanged; and
`processingBlock(X)` on the reset filter writes into `X` exactly what it writes
on `g`, for every buffer `X`. -/
theorem resetState_matches_fresh [Field R] [DecidableEq R] (N : Numerics R)
    (f g : BiquadFilter R) (ops setters : List (FilterOp R)) (X : AudioBuffer R)
    (hf : f = ops.foldl (FilterOp.apply N) (BiquadFilter.new N))
    (hg : g = setters.foldl (FilterOp.apply N) (BiquadFilter.new N))
    (hs : ∀ op ∈ setters, op.isSetter = true)
    (h1 : g.filterType = f.filterType) (h2 : g.frequency = f.frequency) (h3 : g.q = f.q)
    (h4 : g.gain = f.gain) (h5 : g.sampleRate = f.sampleRate) :
    DelayLinesZero (resetState f) ∧ SameSettings (resetState f) f ∧
    (resetState f).x1.length = f.x1.length ∧ (resetState f).x2.length = f.x2.length ∧
    (resetState f).y1.length = f.y1.length ∧ (resetState f).y2.length = f.y2.length ∧
    (BiquadFilter.processingBlock N (resetState f) X).2 =
      (BiquadFilter.processingBlock N g X).2 := by
  have wf : WellFormed N f := hf ▸ wellFormed_foldl N ops _ (wellFormed_new N)
  have wg : WellFormed N g := hg ▸ wellFormed_foldl N setters _ (wellFormed_new N)
  have hnew : ∀ k : BiquadFilter R, k = BiquadFilter.new N →
      k.x1 = [] ∧ k.x2 = [] ∧ k.y1 = [] ∧ k.y2 = [] := by
    intro k hk
    rw [hk, BiquadFilter.new, calculateCoefficients_eq]
    exact ⟨rfl, rfl, rfl, rfl⟩
  obtain ⟨n1, n2, n3, n4⟩ := hnew _ rfl
  obtain ⟨g1, g2, g3, g4⟩ := setters_keep_empty N setters _ hs n1 n2 n3 n4
  rw [← hg] at g1 g2 g3 g4
  have hsame : SameSettings f g :=
    sameSettings_of_consistent N f g wf.1 wg.1 h1.symm h2.symm h3.symm h4.symm h5.symm
  refine ⟨delayLinesZero_resetState f, sameSettings_resetState f, ?_, ?_, ?_, ?_, ?_⟩
  · simp [resetState]
  · simp [resetState]
  · simp [resetState]
  · simp [resetState]
  · have e : ensureSize (resetState f) X.channels.length = ensureSize g X.channels.length := by
      rw [ensureSize_resetState f _ wf.2, ensureSize_empty g _ g1 g2 g3 g4]
      obtain ⟨s1, s2, s3, s4, s5, s6, s7, s8, s9, s10, s11⟩ := hsame
      obtain ⟨ft, fr, q, gn, sr, b0, b1, b2, a0, a1, a2, x1, x2, y1, y2⟩ := f
      obtain ⟨ft', fr', q', gn', sr', b0', b1', b2', a0', a1', a2', x1', x2', y1', y2'⟩ := g
      simp only at s1 s2 s3 s4 s5 s6 s7 s8 s9 s10 s11
      subst s1 s2 s3 s4 s5 s6 s7 s8 s9 s10 s11
      rfl
    simp only [BiquadFilter.processingBlock, e]

/-- C8 on a HighPass filter that has processed a two-channel block. -/
theorem resetState_matches_fresh_witness :
    let ops : List (FilterOp ℚ) :=
      [FilterOp.setType FilterType.HighPass,
       FilterOp.processingBlock { numSamples := 2, channels := [[1, 0], [0, 1]] }]
    let setters : List (FilterOp ℚ) := [FilterOp.setType FilterType.HighPass]
    let f := ops.foldl (FilterOp.apply testNumerics) (BiquadFilter.new testNumerics)
    let g := setters.foldl (FilterOp.apply testNumerics) (BiquadFilter.new testNumerics)
    let X : AudioBuffer ℚ := { numSamples := 3, channels := [[1, 2, 3]] }
    DelayLinesZero (resetState f) ∧ SameSettings (resetState f) f ∧
    (resetState f).x1.length = f.x1.length ∧ (resetState f).x2.length = f.x2.length ∧
    (resetState f).y1.length = f.y1.length ∧ (resetState f).y2.length = f.y2.length ∧
    (BiquadFilter.processingBlock testNumerics (resetState f) X).2 =
      (BiquadFilter.processingBlock testNumerics g X).2 :=
  resetState_matches_fresh testNumerics _ _
    [FilterOp.setType FilterType.HighPass,
     FilterOp.processingBlock { numSamples := 2, channels := [[1, 0], [0, 1]] }]
    [FilterOp.setType FilterType.HighPass]
    { numSamples := 3, channels := [[1, 2, 3]] } rfl rfl
    (by intro op h; simp at h; subst h; rfl) rfl rfl rfl rfl rfl

/-- C9 (amended).  A `load` that succeeds on a source of `L < 2^64` samples
returns true and leaves `currentPosition = 0`, `totalLength = L`, the source
bound, every effect in the chain reset, and the playing flag as it was before
the call. -/
theorem load_success_state [Zero R] (m : Machine R) (reader : AudioFormatReader)
    (fresh : Nat → Nat → R) (h64 : reader.lengthInSamples < 2 ^ 64) :
    (PlayerProcessor.load true (some reader) fresh m).2 = true ∧
    (PlayerProcessor.load true (some reader) fresh m).1.player.isPlayingState
      = m.player.isPlayingState ∧
    (PlayerProcessor.load true (some reader) fresh m).1.player.currentPosition = 0 ∧
    (PlayerProcessor.load true (some reader) fresh m).1.player.totalLength
      = reader.lengthInSamples ∧
    (PlayerProcessor.load true (some reader) fresh m).1.player.reader = some reader ∧
    (PlayerProcessor.load true (some reader) fresh m).1.player.effects = m.player.effects ∧
    ∀ e ∈ m.player.effects,
      DelayLinesZero ((PlayerProcessor.load true (some reader) fresh m).1.objects e) := by
  rw [load_success]
  refine ⟨rfl, rfl, rfl, Nat.mod_eq_of_lt h64, rfl, rfl, ?_⟩
  intro e he
  exact resetAllEffects_zero _ e he

/-- C9 (amended) on a `load` in the playing state `examplePlaying`. -/
theorem load_success_state_witness :
    (PlayerProcessor.load true (some exampleReader) (fun _ _ => 0) examplePlaying).2 = true ∧
    (PlayerProcessor.load true (some exampleReader) (fun _ _ => 0) examplePlaying).1.player.isPlayingState
      = examplePlaying.player.isPlayingState ∧
    (PlayerProcessor.load true (some exampleReader) (fun _ _ => 0) examplePlaying).1.player.currentPosition
      = 0 ∧
    (PlayerProcessor.load true (some exampleReader) (fun _ _ => 0) examplePlaying).1.player.totalLength
      = exampleReader.lengthInSamples ∧
    (PlayerProcessor.load true (some exampleReader) (fun _ _ => 0) examplePlaying).1.player.reader
      = some exampleReader ∧
    (PlayerProcessor.load true (some exampleReader) (fun _ _ => 0) examplePlaying).1.player.effects
      = examplePlaying.player.effects ∧
    ∀ e ∈ examplePlaying.player.effects,
      DelayLinesZero
        ((PlayerProcessor.load true (some exampleReader) (fun _ _ => 0) examplePlaying).1.objects e) :=
  load_success_state examplePlaying exampleReader (fun _ _ => 0) (by decide)

/-- C9 (counterexample).  In the playing state `examplePlaying` a `load` succeeds
and the engine is not stopped afterwards: `isPlayingState` is still true. -/
theorem load_while_playing_stays_playing :
    examplePlaying.player.isPlayingState = true ∧
    (PlayerProcessor.load true (some exampleReader) (fun _ _ => 0) examplePlaying).2 = true ∧
    ¬ (PlayerProcessor.load true (some exampleReader) (fun _ _ => 0)
        examplePlaying).1.player.isPlayingState = false := by
  decide

/-- C10 (the code departs from the claim).  In the playing state
`examplePlaying`, which has a source bound, a `load` of an existing file for
which no reader can be created returns false and leaves `reader` null, with the
playing flag and `totalLength` of the old source still in place; the next audio
callback then dereferences the null `reader`. -/
theorem load_unsupported_unbinds_source :
    examplePlaying.player.reader = some exampleReader ∧
    (PlayerProcessor.load true none (fun _ _ => 0) examplePlaying).2 = false ∧
    (PlayerProcessor.load true none (fun _ _ => 0) examplePlaying).1.player.reader = none ∧
    (PlayerProcessor.load true none (fun _ _ => 0) examplePlaying).1.player.isPlayingState = true ∧
    (PlayerProcessor.load true none (fun _ _ => 0) examplePlaying).1.player.totalLength = 88200 ∧
    PlayerProcessor.audioDeviceIOCallback testNumerics exampleCall
      (PlayerProcessor.load true none (fun _ _ => 0) examplePlaying).1 = none := by
  refine ⟨by decide, by decide, by decide, by decide, by decide, rfl⟩

/-- C11 (amended).  With a source loaded, `stop()` returns true and afterwards
`isPlayingState` is false, `currentPosition` is 0 and every entry of the state
vectors of every effect in the chain is zero, the chain and `totalLength` being
as before.  With no source loaded, `stop()` returns false and leaves the program
state as it was. -/
theorem stop_with_source [Zero R] (m m0 : Machine R) (hr : m.player.reader ≠ none)
    (h0 : m0.player.reader = none) :
    ((PlayerProcessor.stop m).2 = true ∧
      (PlayerProcessor.stop m).1.player.isPlayingState = false ∧
      (PlayerProcessor.stop m).1.player.currentPosition = 0 ∧
      (PlayerProcessor.stop m).1.player.effects = m.player.effects ∧
      (PlayerProcessor.stop m).1.player.totalLength = m.player.totalLength ∧
      ∀ e ∈ m.player.effects, DelayLinesZero ((PlayerProcessor.stop m).1.objects e)) ∧
    PlayerProcessor.stop m0 = (m0, false) := by
  constructor
  · have hsome : m.player.reader.isSome = true := by
      cases h : m.player.reader with
      | none => exact absurd h hr
      | some _ => rfl
    have he : PlayerProcessor.stop m =
        (PlayerProcessor.resetAllEffects
          { m with player := { m.player with isPlayingState := false, currentPosition := 0 } },
          true) := by
      unfold PlayerProcessor.stop
      rw [if_pos hsome]
    rw [he]
    refine ⟨rfl, rfl, rfl, rfl, rfl, ?_⟩
    intro e hmem
    exact resetAllEffects_zero _ e hmem
  · unfold PlayerProcessor.stop
    rw [h0]
    rfl

/-- C11 (amended) on the playing state `examplePlaying` and on the state
`exampleUsedChain`, which has no source. -/
theorem stop_with_source_witness :
    ((PlayerProcessor.stop examplePlaying).2 = true ∧
      (PlayerProcessor.stop examplePlaying).1.player.isPlayingState = false ∧
      (PlayerProcessor.stop examplePlaying).1.player.currentPosition = 0 ∧
      (PlayerProcessor.stop examplePlaying).1.player.effects = examplePlaying.player.effects ∧
      (PlayerProcessor.stop examplePlaying).1.player.totalLength
        = examplePlaying.player.totalLength ∧
      ∀ e ∈ examplePlaying.player.effects,
        DelayLinesZero ((PlayerProcessor.stop examplePlaying).1.objects e)) ∧
    PlayerProcessor.stop exampleUsedChain = (exampleUsedChain, false) :=
  stop_with_source examplePlaying exampleUsedChain (by decide) rfl

/-- C11 (counterexample).  In the state `exampleUsedChain` no source is loaded and
the filter at address 0 is in the chain with `x1 = [1]`; `stop()` returns false
and the filter is not reset: `x1` is still `[1]`. -/
theorem stop_without_source_resets_nothing :
    exampleUsedChain.player.reader = none ∧
    0 ∈ exampleUsedChain.player.effects ∧
    (PlayerProcessor.stop exampleUsedChain).2 = false ∧
    ((PlayerProcessor.stop exampleUsedChain).1.objects 0).x1 = [1] ∧
    ¬ DelayLinesZero ((PlayerProcessor.stop exampleUsedChain).1.objects 0) := by
  refine ⟨rfl, by decide, rfl, rfl, ?_⟩
  intro h
  have h1 : ((PlayerProcessor.stop exampleUsedChain).1.objects 0).x1 = [1] := rfl
  have := h.1 1 (by rw [h1]; exact List.mem_singleton.mpr rfl)
  exact one_ne_zero this

theorem lengths_calculateCoefficients [Field R] (N : Numerics R) (f : BiquadFilter R) :
    (calculateCoefficients N f).x1 = f.x1 ∧ (calculateCoefficients N f).x2 = f.x2 ∧
    (calculateCoefficients N f).y1 = f.y1 ∧ (calculateCoefficients N f).y2 = f.y2 ∧
    (calculateCoefficients N f).filterType = f.filterType ∧
    (calculateCoefficients N f).frequency = f.frequency ∧
    (calculateCoefficients N f).q = f.q ∧ (calculateCoefficients N f).gain = f.gain ∧
    (calculateCoefficients N f).sampleRate = f.sampleRate := by
  rw [calculateCoefficients_eq]
  exact ⟨rfl, rfl, rfl, rfl, rfl, rfl, rfl, rfl, rfl⟩

theorem setSampleRate_same [Field R] [DecidableEq R] (N : Numerics R) (f : BiquadFilter R) :
    setSampleRate N f f.sampleRate = f := by
  unfold setSampleRate
  rw [if_neg (by simp)]

/-- C14 (amended).  For a rate different from the filter's current `sampleRate`,
`setSampleRate(rate)` stores the rate, zeroes every entry of `x1`, `x2`, `y1`, `y2`
(keeping their lengths) and leaves type, frequency, Q and gain unchanged.  For
the rate the filter already has, `setSampleRate` leaves the whole filter state,
history included, as it was. -/
theorem setSampleRate_resets_on_change [Field R] [DecidableEq R] (N : Numerics R)
    (f : BiquadFilter R) (rate : R) (h : rate ≠ f.sampleRate) :
    (DelayLinesZero (setSampleRate N f rate) ∧
      (setSampleRate N f rate).sampleRate = rate ∧
      (setSampleRate N f rate).filterType = f.filterType ∧
      (setSampleRate N f rate).frequency = f.frequency ∧
      (setSampleRate N f rate).q = f.q ∧ (setSampleRate N f rate).gain = f.gain ∧
      (setSampleRate N f rate).x1.length = f.x1.length ∧
      (setSampleRate N f rate).x2.length = f.x2.length ∧
      (setSampleRate N f rate).y1.length = f.y1.length ∧
      (setSampleRate N f rate).y2.length = f.y2.length) ∧
    setSampleRate N f f.sampleRate = f := by
  constructor
  · have e : setSampleRate N f rate =
        resetState (calculateCoefficients N { f with sampleRate := rate }) := by
      unfold setSampleRate
      rw [if_pos h]
    obtain ⟨l1, l2, l3, l4, p1, p2, p3, p4, p5⟩ :=
      lengths_calculateCoefficients N { f with sampleRate := rate }
    rw [e]
    refine ⟨delayLinesZero_resetState _, p5, p1, p2, p3, p4, ?_, ?_, ?_, ?_⟩
    · simp [resetState, l1]
    · simp [resetState, l2]
    · simp [resetState, l3]
    · simp [resetState, l4]
  · exact setSampleRate_same N f

/-- C14 (amended) on the used filter and the rate 48000. -/
theorem setSampleRate_resets_on_change_witness :
    (DelayLinesZero (setSampleRate testNumerics exampleUsedFilter 48000) ∧
      (setSampleRate testNumerics exampleUsedFilter 48000).sampleRate = 48000 ∧
      (setSampleRate testNumerics exampleUsedFilter 48000).filterType
        = exampleUsedFilter.filterType ∧
      (setSampleRate testNumerics exampleUsedFilter 48000).frequency
        = exampleUsedFilter.frequency ∧
      (setSampleRate testNumerics exampleUsedFilter 48000).q = exampleUsedFilter.q ∧
      (setSampleRate testNumerics exampleUsedFilter 48000).gain = exampleUsedFilter.gain ∧
      (setSampleRate testNumerics exampleUsedFilter 48000).x1.length
        = exampleUsedFilter.x1.length ∧
      (setSampleRate testNumerics exampleUsedFilter 48000).x2.length
        = exampleUsedFilter.x2.length ∧
      (setSampleRate testNumerics exampleUsedFilter 48000).y1.length
        = exampleUsedFilter.y1.length ∧
      (setSampleRate testNumerics exampleUsedFilter 48000).y2.length
        = exampleUsedFilter.y2.length) ∧
    setSampleRate testNumerics exampleUsedFilter exampleUsedFilter.sampleRate
      = exampleUsedFilter :=
  setSampleRate_resets_on_change testNumerics exampleUsedFilter 48000
    (by
      have e : exampleUsedFilter.sampleRate = 44100 := rfl
      rw [e]
      norm_num)

/-- C14 (counterexample).  The used filter has `sampleRate = 44100` and `x1 = [1]`;
`setSampleRate(44100)` leaves `x1 = [1]`: the history is not cleared. -/
theorem setSampleRate_same_rate_keeps_history :
    exampleUsedFilter.sampleRate = 44100 ∧
    (setSampleRate testNumerics exampleUsedFilter 44100).x1 = [1] ∧
    ¬ DelayLinesZero (setSampleRate testNumerics exampleUsedFilter 44100) := by
  have e : setSampleRate testNumerics exampleUsedFilter 44100 = exampleUsedFilter := by
    exact setSampleRate_same testNumerics exampleUsedFilter
  have hx : exampleUsedFilter.x1 = [1] := rfl
  refine ⟨rfl, by rw [e, hx], ?_⟩
  rw [e]
  intro h
  have := h.1 1 (by rw [hx]; exact List.mem_singleton.mpr rfl)
  exact one_ne_zero this

/-- C15.  Each of `setType`, `setFrequency`, `setQ`, `setGain` leaves `x1`, `x2`,
`y1`, `y2` as they were and leaves the parameter equal to its argument.  Called
with the current value it returns the filter state unchanged; called with
another value it returns the state that `calculateCoefficients` produces from
the filter with the parameter updated, so the stored coefficients are the ones
computed for the updated parameters. -/
theorem setters_keep_history [Field R] [DecidableEq R] (N : Numerics R) (f : BiquadFilter R)
    (type : FilterType) (newFrequency newQ newGain : R) :
    (setType N f type =
        (if type = f.filterType then f
         else calculateCoefficients N { f with filterType := type }) ∧
      (setType N f type).filterType = type ∧
      (setType N f type).x1 = f.x1 ∧ (setType N f type).x2 = f.x2 ∧
      (setType N f type).y1 = f.y1 ∧ (setType N f type).y2 = f.y2) ∧
    (setFrequency N f newFrequency =
        (if newFrequency = f.frequency then f
         else calculateCoefficients N { f with frequency := newFrequency }) ∧
      (setFrequency N f newFrequency).frequency = newFrequency ∧
      (setFrequency N f newFrequency).x1 = f.x1 ∧ (setFrequency N f newFrequency).x2 = f.x2 ∧
      (setFrequency N f newFrequency).y1 = f.y1 ∧ (setFrequency N f newFrequency).y2 = f.y2) ∧
    (setQ N f newQ =
        (if newQ = f.q then f else calculateCoefficients N { f with q := newQ }) ∧
      (setQ N f newQ).q = newQ ∧
      (setQ N f newQ).x1 = f.x1 ∧ (setQ N f newQ).x2 = f.x2 ∧
      (setQ N f newQ).y1 = f.y1 ∧ (setQ N f newQ).y2 = f.y2) ∧
    (setGain N f newGain =
        (if newGain = f.gain then f else calculateCoefficients N { f with gain := newGain }) ∧
      (setGain N f newGain).gain = newGain ∧
      (setGain N f newGain).x1 = f.x1 ∧ (setGain N f newGain).x2 = f.x2 ∧
      (setGain N f newGain).y1 = f.y1 ∧ (setGain N f newGain).y2 = f.y2) := by
  refine ⟨?_, ?_, ?_, ?_⟩
  · by_cases h : type = f.filterType
    · simp [setType, h]
    · obtain ⟨l1, l2, l3, l4, p1, -⟩ :=
        lengths_calculateCoefficients N { f with filterType := type }
      simp only [setType, ne_eq, h, not_false_eq_true, if_true, if_false]
      exact ⟨trivial, p1, l1, l2, l3, l4⟩
  · by_cases h : newFrequency = f.frequency
    · simp [setFrequency, h]
    · obtain ⟨l1, l2, l3, l4, -, p2, -⟩ :=
        lengths_calculateCoefficients N { f with frequency := newFrequency }
      simp only [setFrequency, ne_eq, h, not_false_eq_true, if_true, if_false]
      exact ⟨trivial, p2, l1, l2, l3, l4⟩
  · by_cases h : newQ = f.q
    · simp [setQ, h]
    · obtain ⟨l1, l2, l3, l4, -, -, p3, -⟩ :=
        lengths_calculateCoefficients N { f with q := newQ }
      simp only [setQ, ne_eq, h, not_false_eq_true, if_true, if_false]
      exact ⟨trivial, p3, l1, l2, l3, l4⟩
  · by_cases h : newGain = f.gain
    · simp [setGain, h]
    · obtain ⟨l1, l2, l3, l4, -, -, -, p4, -⟩ :=
        lengths_calculateCoefficients N { f with gain := newGain }
      simp only [setGain, ne_eq, h, not_false_eq_true, if_true, if_false]
      exact ⟨trivial, p4, l1, l2, l3, l4⟩

theorem getElem?_clear [Zero R] (dest : List R) (n i : Nat) (h : i < n) :
    (clear dest n)[i]? = some 0 := by
  unfold clear
  rw [List.getElem?_append_left (by simpa using h)]
  simp [List.getElem?_replicate, h]

theorem getElem?_clearOutputs [Zero R] (out : List (Option (List R))) (n ch : Nat) :
    (PlayerProcessor.clearOutputs out n)[ch]? =
      (out[ch]?).map fun o => o.map fun dest => clear dest n := by
  simp [PlayerProcessor.clearOutputs]

/-- C12.  With a source loaded, an audio callback whose read fails has a defined
outcome: every requested frame of every non-null output channel is zero, a null
output channel stays null, and `currentPosition`, the playing flag,
`totalLength`, the bound source and every effect object are as before the
call. -/
theorem callback_read_failure [Field R] (N : Numerics R) (args : CallbackArgs R)
    (m : Machine R) (reader : AudioFormatReader) (hr : m.player.reader = some reader)
    (hfail : args.readSuccess = false) :
    ∃ r, PlayerProcessor.audioDeviceIOCallback N args m = some r ∧
      r.1.player.currentPosition = m.player.currentPosition ∧
      r.1.player.isPlayingState = m.player.isPlayingState ∧
      r.1.player.totalLength = m.player.totalLength ∧
      r.1.player.reader = m.player.reader ∧
      r.1.objects = m.objects ∧
      r.2.length = args.outputChannelData.length ∧
      ∀ ch : Nat,
        (args.outputChannelData[ch]? = some none → r.2[ch]? = some none) ∧
        ∀ dest, args.outputChannelData[ch]? = some (some dest) →
          ∃ d, r.2[ch]? = some (some d) ∧ ∀ i, i < args.numSamples → d[i]? = some 0 := by
  have hout : ∀ ch : Nat,
      (args.outputChannelData[ch]? = some none →
        (PlayerProcessor.clearOutputs args.outputChannelData args.numSamples)[ch]? = some none) ∧
      ∀ dest, args.outputChannelData[ch]? = some (some dest) →
        ∃ d, (PlayerProcessor.clearOutputs args.outputChannelData args.numSamples)[ch]?
            = some (some d) ∧ ∀ i, i < args.numSamples → d[i]? = some 0 := by
    intro ch
    constructor
    · intro h
      rw [getElem?_clearOutputs, h]
      rfl
    · intro dest h
      refine ⟨clear dest args.numSamples, ?_, fun i hi => getElem?_clear dest _ i hi⟩
      rw [getElem?_clearOutputs, h]
      rfl
  have hlen : (PlayerProcessor.clearOutputs args.outputChannelData args.numSamples).length
      = args.outputChannelData.length := by
    simp [PlayerProcessor.clearOutputs]
  unfold PlayerProcessor.audioDeviceIOCallback
  simp only [hr, hfail, Bool.not_false, if_true]
  split
  · exact ⟨_, rfl, by simp [PlayerProcessor.readBlock], by simp [PlayerProcessor.readBlock],
      by simp [PlayerProcessor.readBlock], by simp [PlayerProcessor.readBlock, hr], rfl,
      hlen, hout⟩
  · exact ⟨_, rfl, by simp, by simp, by simp, by simp [hr], rfl, hlen, hout⟩

/-- C12 on the playing state `examplePlaying` and a callback whose read fails. -/
theorem callback_read_failure_witness :
    ∃ r, PlayerProcessor.audioDeviceIOCallback testNumerics
          { exampleCall with readSuccess := false } examplePlaying = some r ∧
      r.1.player.currentPosition = examplePlaying.player.currentPosition ∧
      r.1.player.isPlayingState = examplePlaying.player.isPlayingState ∧
      r.1.player.totalLength = examplePlaying.player.totalLength ∧
      r.1.player.reader = examplePlaying.player.reader ∧
      r.1.objects = examplePlaying.objects ∧
      r.2.length = exampleCall.outputChannelData.length ∧
      ∀ ch : Nat,
        (exampleCall.outputChannelData[ch]? = some none → r.2[ch]? = some none) ∧
        ∀ dest, exampleCall.outputChannelData[ch]? = some (some dest) →
          ∃ d, r.2[ch]? = some (some d) ∧ ∀ i, i < exampleCall.numSamples → d[i]? = some 0 :=
  callback_read_failure testNumerics { exampleCall with readSuccess := false } examplePlaying
    exampleReader rfl rfl

theorem samplesToRead_eq_min (p : PlayerProcessor R) (n : Nat)
    (hpos : p.currentPosition ≤ p.totalLength) (hwrap : p.currentPosition + n < 2 ^ 64)
    (hint : n < 2 ^ 31) :
    PlayerProcessor.samplesToRead p n = (min n (p.totalLength - p.currentPosition) : Nat) := by
  unfold PlayerProcessor.samplesToRead
  split
  · rename_i h
    unfold castInt
    split <;> omega
  · rename_i h
    omega

theorem length_processChannel [Field R] (N : Numerics R) (ch : Nat) (xs : List R) :
    ∀ f : BiquadFilter R, (processChannel N ch f xs).2.length = xs.length := by
  induction xs with
  | nil => intro f; rfl
  | cons x rest ih => intro f; simp [processChannel, ih]

theorem map_length_processChannels [Field R] (N : Numerics R) (chans : List (List R)) :
    ∀ (k : Nat) (f : BiquadFilter R),
      (processChannels N k f chans).2.map List.length = chans.map List.length := by
  induction chans with
  | nil => intro k f; rfl
  | cons c rest ih => intro k f; simp [processChannels, ih, length_processChannel]

theorem applyEach_map_length [Field R] (N : Numerics R) (es : List Nat) :
    ∀ (objects : Nat → BiquadFilter R) (buffer : AudioBuffer R),
      (PlayerProcessor.applyEach N es objects buffer).2.channels.map List.length =
        buffer.channels.map List.length := by
  induction es with
  | nil => intro objects buffer; rfl
  | cons e rest ih =>
    intro objects buffer
    rw [PlayerProcessor.applyEach, ih]
    simp [BiquadFilter.processingBlock, map_length_processChannels]

theorem readInto_min_length (readData : Nat → Nat → R) (count : Nat) (chans : List (List R)) :
    ∀ ch, ∀ c ∈ AudioBuffer.readInto readData count ch chans, count ≤ c.length := by
  induction chans with
  | nil => intro ch c hc; simp [AudioBuffer.readInto] at hc
  | cons a rest ih =>
    intro ch c hc
    simp only [AudioBuffer.readInto, List.mem_cons] at hc
    rcases hc with hc | hc
    · subst hc; simp
    · exact ih _ c hc

/-- What the copy loop leaves in the output channels. -/
theorem copyOutputs_spec (pb : AudioBuffer R) (count : Nat) (out : List (Option (List R))) :
    ∀ (ch : Nat) (res : List (Option (List R))),
      PlayerProcessor.copyOutputs pb count ch out = some res →
      res.length = out.length ∧
      ∀ i : Nat,
        (out[i]? = some none → res[i]? = some none) ∧
        ∀ dest, out[i]? = some (some dest) →
          ∃ src, pb.channels[min (ch + i) (pb.channels.length - 1)]? = some src ∧
            res[i]? = some (some (copy dest src count)) := by
  induction out with
  | nil =>
    intro ch res h
    simp only [PlayerProcessor.copyOutputs, Option.some.injEq] at h
    subst h
    simp
  | cons o rest ih =>
    intro ch res h
    cases o with
    | none =>
      simp only [PlayerProcessor.copyOutputs, Option.map_eq_some'] at h
      obtain ⟨done, hdone, rfl⟩ := h
      obtain ⟨h1, h2⟩ := ih (ch + 1) done hdone
      refine ⟨by simp [h1], ?_⟩
      intro i
      cases i with
      | zero => simp
      | succ i =>
        have e : ch + (i + 1) = ch + 1 + i := by omega
        simp only [List.getElem?_cons_succ, e]
        exact h2 i
    | some dest =>
      simp only [PlayerProcessor.copyOutputs] at h
      split at h
      · rename_i src hsrc
        simp only [Option.map_eq_some'] at h
        obtain ⟨done, hdone, rfl⟩ := h
        obtain ⟨h1, h2⟩ := ih (ch + 1) done hdone
        refine ⟨by simp [h1], ?_⟩
        intro i
        cases i with
        | zero =>
          simp only [List.getElem?_cons_zero, Option.some.injEq, Nat.add_zero]
          refine ⟨fun h => Option.noConfusion h, ?_⟩
          intro d hd
          subst hd
          refine ⟨src, ?_, rfl⟩
          unfold AudioBuffer.getReadPointer at hsrc
          split at hsrc
          · rename_i hnn
            have e : (min (ch : Int) ((pb.channels.length : Int) - 1)).toNat
                = min ch (pb.channels.length - 1) := by omega
            rw [e] at hsrc
            exact hsrc
          · exact Option.noConfusion hsrc
        | succ i =>
          have e : ch + (i + 1) = ch + 1 + i := by omega
          simp only [List.getElem?_cons_succ, e]
          exact h2 i
      · exact Option.noConfusion h

/-- The callback when frames are available and the read succeeds. -/
theorem callback_success_eq [Field R] (N : Numerics R) (args : CallbackArgs R) (m : Machine R)
    (reader : AudioFormatReader) (hr : m.player.reader = some reader)
    (hok : args.readSuccess = true)
    (hk : 0 < PlayerProcessor.samplesToRead m.player args.numSamples) :
    PlayerProcessor.audioDeviceIOCallback N args m =
      (PlayerProcessor.copyOutputs
        (PlayerProcessor.processingBlock N m
          (PlayerProcessor.readBlock args
            (PlayerProcessor.samplesToRead m.player args.numSamples).toNat
            (PlayerProcessor.resizeProcessBuffer args reader m.player)).processBuffer).2
        (PlayerProcessor.samplesToRead m.player args.numSamples).toNat 0
        (PlayerProcessor.clearOutputs args.outputChannelData args.numSamples)).map
      fun out =>
        (PlayerProcessor.stopAtEnd
          { objects := (PlayerProcessor.processingBlock N m
              (PlayerProcessor.readBlock args
                (PlayerProcessor.samplesToRead m.player args.numSamples).toNat
                (PlayerProcessor.resizeProcessBuffer args reader m.player)).processBuffer).1.objects,
            player :=
              { PlayerProcessor.readBlock args
                  (PlayerProcessor.samplesToRead m.player args.numSamples).toNat
                  (PlayerProcessor.resizeProcessBuffer args reader m.player) with
                currentPosition := (m.player.currentPosition
                  + (PlayerProcessor.samplesToRead m.player args.numSamples).toNat) % 2 ^ 64,
                processBuffer := (PlayerProcessor.processingBlock N m
                  (PlayerProcessor.readBlock args
                    (PlayerProcessor.samplesToRead m.player args.numSamples).toNat
                    (PlayerProcessor.resizeProcessBuffer args reader m.player)).processBuffer).2 } },
          out) := by
  unfold PlayerProcessor.audioDeviceIOCallback
  simp only [hr, samplesToRead_resizeProcessBuffer, gt_iff_lt, hk, if_true, hok, Bool.not_true,
    Bool.false_eq_true, if_false]
  simp only [PlayerProcessor.processingBlock, PlayerProcessor.readBlock,
    resizeProcessBuffer_effects, resizeProcessBuffer_currentPosition]
  split <;> rename_i h <;> simp [h]

theorem stopAtEnd_processBuffer [Zero R] (m : Machine R) :
    (PlayerProcessor.stopAtEnd m).player.processBuffer = m.player.processBuffer := by
  unfold PlayerProcessor.stopAtEnd
  split <;> rfl

/-- C13.  Let a source with `M ≥ 1` channels be loaded, let the frame count fit an
`int` and let the sum of position and frame count fit `uint64_t`.  If `k = min(frameCount, totalLength − position) > 0` and
the read succeeds, the callback has a defined outcome; with `scratch` the
buffer that the effect chain leaves after processing what was read, the first
`k` frames of every non-null output channel `i` are the first `k` frames of
`scratch` channel `min(i, M−1)`, its frames `k..frameCount−1` are zero, and a
null output channel stays null. -/
theorem callback_output_mapping [Field R] (N : Numerics R) (args : CallbackArgs R)
    (m : Machine R) (reader : AudioFormatReader) (hr : m.player.reader = some reader)
    (hM : 1 ≤ reader.numChannels) (hok : args.readSuccess = true)
    (hint : args.numSamples < 2 ^ 31)
    (hwrap : m.player.currentPosition + args.numSamples < 2 ^ 64)
    (hk : 0 < min args.numSamples (m.player.totalLength - m.player.currentPosition)) :
    ∃ r scratch,
      PlayerProcessor.audioDeviceIOCallback N args m = some r ∧
      scratch = (PlayerProcessor.processingBlock N m
        (PlayerProcessor.readBlock args
          (min args.numSamples (m.player.totalLength - m.player.currentPosition))
          (PlayerProcessor.resizeProcessBuffer args reader m.player)).processBuffer).2 ∧
      r.1.player.processBuffer = scratch ∧
      scratch.channels.length = reader.numChannels ∧
      r.2.length = args.outputChannelData.length ∧
      ∀ i : Nat,
        (args.outputChannelData[i]? = some none → r.2[i]? = some none) ∧
        ∀ dest, args.outputChannelData[i]? = some (some dest) →
          ∃ src d, scratch.channels[min i (reader.numChannels - 1)]? = some src ∧
            r.2[i]? = some (some d) ∧
            min args.numSamples (m.player.totalLength - m.player.currentPosition) ≤ src.length ∧
            d.take (min args.numSamples (m.player.totalLength - m.player.currentPosition)) =
              src.take (min args.numSamples (m.player.totalLength - m.player.currentPosition)) ∧
            ∀ j, min args.numSamples (m.player.totalLength - m.player.currentPosition) ≤ j →
              j < args.numSamples → d[j]? = some 0 := by
  have hpos : m.player.currentPosition ≤ m.player.totalLength := by omega
  have hs := samplesToRead_eq_min m.player args.numSamples hpos hwrap hint
  have hks : 0 < PlayerProcessor.samplesToRead m.player args.numSamples := by
    rw [hs]; exact_mod_cast hk
  have hcb := callback_success_eq N args m reader hr hok hks
  have hnat : (PlayerProcessor.samplesToRead m.player args.numSamples).toNat
      = min args.numSamples (m.player.totalLength - m.player.currentPosition) := by
    rw [hs]; exact Int.toNat_ofNat _
  rw [hnat] at hcb
  generalize hkdef : min args.numSamples (m.player.totalLength - m.player.currentPosition) = k
    at hcb hk ⊢
  generalize hsc : (PlayerProcessor.processingBlock N m
      (PlayerProcessor.readBlock args k
        (PlayerProcessor.resizeProcessBuffer args reader m.player)).processBuffer).2 = scratch
    at hcb ⊢
  have hchan : scratch.channels.length = reader.numChannels := by
    rw [← hsc]
    simp only [PlayerProcessor.processingBlock, applyEach_channels_length,
      PlayerProcessor.readBlock, length_readInto, resizeProcessBuffer_channels]
  have hlens : ∀ c ∈ scratch.channels, k ≤ c.length := by
    intro c hc
    have hmap : scratch.channels.map List.length =
        (PlayerProcessor.readBlock args k
          (PlayerProcessor.resizeProcessBuffer args reader m.player)).processBuffer.channels.map
          List.length := by
      rw [← hsc]
      simp only [PlayerProcessor.processingBlock, applyEach_map_length]
    obtain ⟨j, hj, rfl⟩ := List.getElem_of_mem hc
    have hj2 : j < (PlayerProcessor.readBlock args k
        (PlayerProcessor.resizeProcessBuffer args reader m.player)).processBuffer.channels.length := by
      have := congrArg List.length hmap
      simp only [List.length_map] at this
      omega
    have e := congrArg (fun l => l[j]?) hmap
    simp only [List.getElem?_map, List.getElem?_eq_getElem hj, List.getElem?_eq_getElem hj2,
      Option.map_some', Option.some.injEq] at e
    rw [e]
    exact readInto_min_length args.readData k _ 0 _ (List.getElem_mem _)
  obtain ⟨res, hres⟩ := copyOutputs_isSome scratch k (by omega)
    (PlayerProcessor.clearOutputs args.outputChannelData args.numSamples) 0
  rw [hres] at hcb
  obtain ⟨hl, hget⟩ := copyOutputs_spec scratch k _ 0 res hres
  refine ⟨_, scratch, hcb, rfl, ?_, hchan, ?_, ?_⟩
  · rw [stopAtEnd_processBuffer]
  · rw [hl]; simp [PlayerProcessor.clearOutputs]
  · intro i
    obtain ⟨g1, g2⟩ := hget i
    constructor
    · intro h
      apply g1
      rw [getElem?_clearOutputs, h]
      rfl
    · intro dest h
      obtain ⟨src, hsrc, hd⟩ := g2 (clear dest args.numSamples)
        (by rw [getElem?_clearOutputs, h]; rfl)
      rw [Nat.zero_add, hchan] at hsrc
      have hsl : k ≤ src.length := hlens src (List.getElem?_mem hsrc)
      refine ⟨src, _, hsrc, hd, hsl, ?_, ?_⟩
      · unfold copy
        rw [List.take_append_of_le_length (by simp; omega)]
        simp
      · intro j hj1 hj2
        unfold copy
        rw [List.getElem?_append_right (by simp; omega)]
        simp only [List.length_take, Nat.min_eq_left hsl, List.getElem?_drop]
        have e : k + (j - k) = j := by omega
        rw [e]
        exact getElem?_clear dest _ j hj2

/-- C13 on the playing state `examplePlaying` (a two-channel source at position
0) and a callback for 44100 frames. -/
theorem callback_output_mapping_witness :
    ∃ r scratch,
      PlayerProcessor.audioDeviceIOCallback testNumerics exampleCall examplePlaying = some r ∧
      scratch = (PlayerProcessor.processingBlock testNumerics examplePlaying
        (PlayerProcessor.readBlock exampleCall
          (min exampleCall.numSamples
            (examplePlaying.player.totalLength - examplePlaying.player.currentPosition))
          (PlayerProcessor.resizeProcessBuffer exampleCall exampleReader
            examplePlaying.player)).processBuffer).2 ∧
      r.1.player.processBuffer = scratch ∧
      scratch.channels.length = exampleReader.numChannels ∧
      r.2.length = exampleCall.outputChannelData.length ∧
      ∀ i : Nat,
        (exampleCall.outputChannelData[i]? = some none → r.2[i]? = some none) ∧
        ∀ dest, exampleCall.outputChannelData[i]? = some (some dest) →
          ∃ src d, scratch.channels[min i (exampleReader.numChannels - 1)]? = some src ∧
            r.2[i]? = some (some d) ∧
            min exampleCall.numSamples
              (examplePlaying.player.totalLength - examplePlaying.player.currentPosition)
              ≤ src.length ∧
            d.take (min exampleCall.numSamples
              (examplePlaying.player.totalLength - examplePlaying.player.currentPosition)) =
              src.take (min exampleCall.numSamples
                (examplePlaying.player.totalLength - examplePlaying.player.currentPosition)) ∧
            ∀ j, min exampleCall.numSamples
                (examplePlaying.player.totalLength - examplePlaying.player.currentPosition) ≤ j →
              j < exampleCall.numSamples → d[j]? = some 0 :=
  callback_output_mapping testNumerics exampleCall examplePlaying exampleReader rfl
    (by decide) rfl (by decide) (by decide) (by decide)

theorem getD_of_delayLinesZero [Zero R] (v : List R) (j : Nat) (h : ∀ a ∈ v, a = 0) :
    v.getD j 0 = 0 := by
  rw [List.getD_eq_getElem?_getD]
  cases hv : v[j]? with
  | none => rfl
  | some a => exact h a (List.getElem?_mem hv)

theorem getD_impulse (k i : Nat) :
    ((1 : ℝ) :: List.replicate k 0).getD i 0 = if i = 0 then 1 else 0 := by
  cases i with
  | zero => simp
  | succ i =>
    simp only [List.getD_eq_getElem?_getD, List.getElem?_cons_succ, List.getElem?_replicate]
    split <;> simp

/-- C16.  In exact real arithmetic (`narrow` the identity), let a LowPass filter
hold `frequency = sampleRate/4`, `Q = 0.707`, the coefficients computed from its
parameters, and state vectors of one length with every entry zero.  Then its
coefficients are `b0 = b2 = 1/2`, `b1 = 1`, `a0 = 1 + 1/(2·0.707)`, `a1 = 0`,
`a2 = 1 − 1/(2·0.707)`, and the samples `h` that `processingBlock` writes for a
channel holding the unit impulse `1, 0, ..., 0` are `h[0] = b0/a0`,
`h[1] = b1/a0`, `h[2] = (b2 − a2·h[0])/a0` and `h[n] = −(a2/a0)·h[n−2]` for every
`n ≥ 3` in the block. -/
theorem lowPass_impulse_response (f : BiquadFilter ℝ) (buffer : AudioBuffer ℝ) (ch k : Nat)
    (_hT : f.filterType = FilterType.LowPass) (hsr : f.sampleRate ≠ 0)
    (hF : f.frequency = f.sampleRate / 4) (hQ : f.q = 0.707)
    (hC : calculateCoefficients ⟨Real.pi, Real.sin, Real.cos, id⟩ f = f)
    (hlen : f.x2.length = f.x1.length ∧ f.y1.length = f.x1.length ∧ f.y2.length = f.x1.length)
    (hzero : DelayLinesZero f)
    (hx : buffer.channels[ch]? = some (1 :: List.replicate k 0)) :
    (f.b0 = 1 / 2 ∧ f.b1 = 1 ∧ f.b2 = 1 / 2 ∧ f.a0 = 1 + 1 / (2 * 0.707) ∧ f.a1 = 0 ∧
      f.a2 = 1 - 1 / (2 * 0.707)) ∧
    ∃ h : List ℝ,
      (BiquadFilter.processingBlock ⟨Real.pi, Real.sin, Real.cos, id⟩ f buffer).2.channels[ch]?
        = some h ∧
      h.length = k + 1 ∧
      h.getD 0 0 = f.b0 / f.a0 ∧
      (1 ≤ k → h.getD 1 0 = f.b1 / f.a0) ∧
      (2 ≤ k → h.getD 2 0 = (f.b2 - f.a2 * h.getD 0 0) / f.a0) ∧
      ∀ n, 3 ≤ n → n ≤ k → h.getD n 0 = -(f.a2 / f.a0) * h.getD (n - 2) 0 := by
  have hw : 2 * Real.pi * f.frequency / f.sampleRate = Real.pi / 2 := by
    rw [hF]; field_simp; ring
  have hcoef : f.b0 = 1 / 2 ∧ f.b1 = 1 ∧ f.b2 = 1 / 2 ∧ f.a0 = 1 + 1 / (2 * 0.707) ∧ f.a1 = 0 ∧
      f.a2 = 1 - 1 / (2 * 0.707) := by
    rw [calculateCoefficients_eq] at hC
    have c0 := congrArg BiquadFilter.b0 hC
    have c1 := congrArg BiquadFilter.b1 hC
    have c2 := congrArg BiquadFilter.b2 hC
    have c3 := congrArg BiquadFilter.a0 hC
    have c4 := congrArg BiquadFilter.a1 hC
    have c5 := congrArg BiquadFilter.a2 hC
    simp only [hw, Real.cos_pi_div_two, Real.sin_pi_div_two, hQ] at c0 c1 c2 c3 c4 c5
    refine ⟨?_, ?_, ?_, ?_, ?_, ?_⟩
    · rw [← c0]; norm_num
    · rw [← c1]; norm_num
    · rw [← c2]; norm_num
    · rw [← c3]
    · rw [← c4]; norm_num
    · rw [← c5]
  refine ⟨hcoef, ?_⟩
  obtain ⟨hb0, hb1, hb2, ha0, ha1, ha2⟩ := hcoef
  have hch : ch < buffer.channels.length := by
    by_contra h
    rw [List.getElem?_eq_none (by omega)] at hx
    exact Option.noConfusion hx
  obtain ⟨e1, e2, e3⟩ := ensureSize_spec f buffer.channels.length hlen
  obtain ⟨-, -, -, -, h5⟩ :=
    processChannels_spec ⟨Real.pi, Real.sin, Real.cos, id⟩ buffer.channels.length
      buffer.channels 0 _ e1 (by omega)
  obtain ⟨ho, -⟩ := h5 ch _ hx
  rw [Nat.zero_add, e2, e3 ch hch] at ho
  have htaps : f.tapsAt ch = ⟨0, 0, 0, 0⟩ := by
    simp only [BiquadFilter.tapsAt, getD_of_delayLinesZero _ _ hzero.1,
      getD_of_delayLinesZero _ _ hzero.2.1, getD_of_delayLinesZero _ _ hzero.2.2.1,
      getD_of_delayLinesZero _ _ hzero.2.2.2]
  rw [htaps] at ho
  obtain ⟨y, hy1, hy2, hout, hrest⟩ :=
    runDelay_difference_equation f.coefficients ⟨0, 0, 0, 0⟩ (1 :: List.replicate k 0)
  let xe : Int → ℝ := fun i => if i = 0 then 1 else 0
  obtain ⟨hrec, -⟩ := hrest xe (by simp [xe]) (by simp [xe])
    (by
      intro i _
      rw [getD_impulse]
      simp only [xe]
      by_cases hi : i = 0
      · simp [hi]
      · have : ¬ ((i : Int) = 0) := by omega
        simp [hi, this])
  simp only [List.length_cons, List.length_replicate] at hout hrec
  have hget : ∀ i : Nat, i ≤ k →
      (List.map id (runDelay f.coefficients ⟨0, 0, 0, 0⟩ (1 :: List.replicate k 0)).2).getD i 0
        = y i := by
    intro i hi
    rw [List.getD_eq_getElem?_getD, List.map_id, hout i (by omega)]
    rfl
  simp only [BiquadFilter.coefficients] at hrec
  refine ⟨_, ho, by simp [runDelay_length], ?_, ?_, ?_, ?_⟩
  · rw [hget 0 (by omega), hrec 0 (by omega)]
    simp [xe, hy1, hy2]
  · intro h1
    rw [hget 1 h1, hrec 1 (by omega)]
    have e0 : ((1 : Nat) : Int) - 1 = ((0 : Nat) : Int) := by omega
    have e1 : ((1 : Nat) : Int) - 2 = -1 := by omega
    rw [e0, e1, hy1]
    simp [xe, ha1]
  · intro h2
    rw [hget 2 h2, hget 0 (by omega), hrec 2 (by omega)]
    have e0 : ((2 : Nat) : Int) - 1 = ((1 : Nat) : Int) := by omega
    have e1 : ((2 : Nat) : Int) - 2 = ((0 : Nat) : Int) := by omega
    rw [e0, e1]
    simp [xe, ha1]
  · intro n h3 hn
    rw [hget n hn, hget (n - 2) (by omega), hrec n (by omega)]
    have e1 : ((n : Nat) : Int) - 2 = ((n - 2 : Nat) : Int) := by omega
    have x0 : xe (n : Int) = 0 := by
      have : ¬ ((n : Int) = 0) := by omega
      simp [xe, this]
    have x1 : xe ((n : Int) - 1) = 0 := by
      have : ¬ ((n : Int) - 1 = 0) := by omega
      simp [xe, this]
    have x2 : xe ((n : Int) - 2) = 0 := by
      have : ¬ ((n : Int) - 2 = 0) := by omega
      simp [xe, this]
    rw [x0, x1, x2, ha1, e1]
    ring

/-- C16 on the LowPass filter with 11025 Hz at 44100 Hz and a block of five
frames. -/
theorem lowPass_impulse_response_witness :
    let N : Numerics ℝ := ⟨Real.pi, Real.sin, Real.cos, id⟩
    let f : BiquadFilter ℝ := calculateCoefficients N
      { filterType := FilterType.LowPass, frequency := 11025, q := 0.707, gain := 0,
        sampleRate := 44100,
        b0 := 0, b1 := 0, b2 := 0, a0 := 0, a1 := 0, a2 := 0,
        x1 := [], x2 := [], y1 := [], y2 := [] }
    (f.b0 = 1 / 2 ∧ f.b1 = 1 ∧ f.b2 = 1 / 2 ∧ f.a0 = 1 + 1 / (2 * 0.707) ∧ f.a1 = 0 ∧
      f.a2 = 1 - 1 / (2 * 0.707)) ∧
    ∃ h : List ℝ,
      (BiquadFilter.processingBlock N f { numSamples := 5, channels := [[1, 0, 0, 0, 0]] }).2.channels[0]?
        = some h ∧
      h.length = 4 + 1 ∧
      h.getD 0 0 = f.b0 / f.a0 ∧
      (1 ≤ 4 → h.getD 1 0 = f.b1 / f.a0) ∧
      (2 ≤ 4 → h.getD 2 0 = (f.b2 - f.a2 * h.getD 0 0) / f.a0) ∧
      ∀ n, 3 ≤ n → n ≤ 4 → h.getD n 0 = -(f.a2 / f.a0) * h.getD (n - 2) 0 :=
  lowPass_impulse_response _ { numSamples := 5, channels := [[1, 0, 0, 0, 0]] } 0 4 rfl
    (by
      show (44100 : ℝ) ≠ 0
      norm_num)
    (by
      show (11025 : ℝ) = 44100 / 4
      norm_num)
    rfl (consistent_calculateCoefficients _ _) ⟨rfl, rfl, rfl⟩
    ⟨fun _ h => absurd h (List.not_mem_nil _), fun _ h => absurd h (List.not_mem_nil _),
      fun _ h => absurd h (List.not_mem_nil _), fun _ h => absurd h (List.not_mem_nil _)⟩
    rfl

/-- C17 (the code departs from the claim).  The callback never reads
`isPlayingState`.  In `exampleLoaded` a source is loaded, the engine is not
Playing and the filter in the chain has empty state vectors; after one callback
for two frames `currentPosition` is 2 and the filter has `x1 = [1]`: the chain
has run.  In `exampleLoadedNoEffects`, likewise not Playing, the callback writes
the source samples `1, 1` into the output channel instead of leaving it zero. -/
theorem callback_ignores_playing_flag :
    exampleLoaded.player.isPlayingState = false ∧
    exampleLoaded.player.reader ≠ none ∧
    exampleLoaded.player.currentPosition = 0 ∧
    (exampleLoaded.objects 0).x1 = [] ∧
    (PlayerProcessor.audioDeviceIOCallback testNumerics exampleSmallCall exampleLoaded).map
      (fun r => r.1.player.currentPosition) = some 2 ∧
    (PlayerProcessor.audioDeviceIOCallback testNumerics exampleSmallCall exampleLoaded).map
      (fun r => (r.1.objects 0).x1) = some [1] ∧
    exampleLoadedNoEffects.player.isPlayingState = false ∧
    (PlayerProcessor.audioDeviceIOCallback testNumerics exampleSmallCall
      exampleLoadedNoEffects).map Prod.snd = some [some [1, 1]] := by
  refine ⟨rfl, by decide, rfl, rfl, rfl, rfl, rfl, rfl⟩

/-- C20 (the code departs from the claim).  In the state the constructor leaves,
and after `initializeAudio`, which hands the callback to the device before any
`load`, no source is bound: an audio callback dereferences the null `reader`
(line 178) and has no defined outcome, so a run of `initializeAudio` followed by
one callback reaches no state. -/
theorem callback_before_load_undefined [Field R] [DecidableEq R] (N : Numerics R)
    (args : CallbackArgs R) (sampleRate : R) (bufferSize : Nat) :
    (Machine.initial N).player.reader = none ∧
    PlayerProcessor.audioDeviceIOCallback N args (Machine.initial N) = none ∧
    PlayerProcessor.audioDeviceIOCallback N args
      (PlayerProcessor.initializeAudio sampleRate bufferSize (Machine.initial N)) = none ∧
    run N (Machine.initial N)
      [Op.initializeAudio sampleRate bufferSize, Op.audioDeviceIOCallback args] = none :=
  ⟨rfl, rfl, rfl, rfl⟩

/-- C18.  In exact real arithmetic, for every filter type and all parameters
with `0 < frequency < sampleRate/2` and `Q > 0`, the coefficients that
`calculateCoefficients` stores satisfy `a0 > 1` (so the division by `a0` is never
a division by zero), `|a2| < a0` and `|a1| < a0 + a2`. -/
theorem coefficients_stable (f : BiquadFilter ℝ) (narrow : ℝ → ℝ)
    (hf : 0 < f.frequency) (hn : f.frequency < f.sampleRate / 2) (hq : 0 < f.q) :
    (calculateCoefficients ⟨Real.pi, Real.sin, Real.cos, narrow⟩ f).a0 > 1 ∧
    |(calculateCoefficients ⟨Real.pi, Real.sin, Real.cos, narrow⟩ f).a2|
      < (calculateCoefficients ⟨Real.pi, Real.sin, Real.cos, narrow⟩ f).a0 ∧
    |(calculateCoefficients ⟨Real.pi, Real.sin, Real.cos, narrow⟩ f).a1|
      < (calculateCoefficients ⟨Real.pi, Real.sin, Real.cos, narrow⟩ f).a0
        + (calculateCoefficients ⟨Real.pi, Real.sin, Real.cos, narrow⟩ f).a2 := by
  rw [calculateCoefficients_eq]
  simp only
  have hsr : 0 < f.sampleRate := by linarith
  have hw0 : 0 < 2 * Real.pi * f.frequency / f.sampleRate := by
    have := Real.pi_pos
    positivity
  have hw1 : 2 * Real.pi * f.frequency / f.sampleRate < Real.pi := by
    rw [div_lt_iff₀ hsr]
    have := Real.pi_pos
    nlinarith
  have hsin : 0 < Real.sin (2 * Real.pi * f.frequency / f.sampleRate) :=
    Real.sin_pos_of_pos_of_lt_pi hw0 hw1
  have hcos1 : Real.cos (2 * Real.pi * f.frequency / f.sampleRate) < 1 := by
    have := Real.cos_lt_cos_of_nonneg_of_le_pi (le_refl 0) hw1.le hw0
    simpa using this
  have hcos2 : -1 < Real.cos (2 * Real.pi * f.frequency / f.sampleRate) := by
    have := Real.cos_lt_cos_of_nonneg_of_le_pi hw0.le (le_refl Real.pi) hw1
    simpa using this
  have halpha : 0 < Real.sin (2 * Real.pi * f.frequency / f.sampleRate) / (2 * f.q) := by
    positivity
  refine ⟨by linarith, ?_, ?_⟩
  · rw [abs_lt]; constructor <;> linarith
  · rw [abs_lt]; constructor <;> linarith

/-- C18 on the default parameters of the constructor: 1000 Hz, Q = 1, 44100 Hz. -/
theorem coefficients_stable_witness :
    (BiquadFilter.new ⟨Real.pi, Real.sin, Real.cos, id⟩).a0 > 1 ∧
    |(BiquadFilter.new ⟨Real.pi, Real.sin, Real.cos, id⟩).a2|
      < (BiquadFilter.new ⟨Real.pi, Real.sin, Real.cos, id⟩).a0 ∧
    |(BiquadFilter.new ⟨Real.pi, Real.sin, Real.cos, id⟩).a1|
      < (BiquadFilter.new ⟨Real.pi, Real.sin, Real.cos, id⟩).a0
        + (BiquadFilter.new ⟨Real.pi, Real.sin, Real.cos, id⟩).a2 :=
  coefficients_stable
    { filterType := FilterType.LowPass, frequency := 1000, q := 1, gain := 0,
      sampleRate := 44100,
      b0 := 0, b1 := 0, b2 := 0, a0 := 0, a1 := 0, a2 := 0,
      x1 := [], x2 := [], y1 := [], y2 := [] } id
    (by norm_num) (by norm_num) (by norm_num)

theorem getD_of_length_le [Zero R] (v : List R) (j : Nat) (h : v.length ≤ j) :
    v.getD j 0 = 0 := by
  simp [List.getD_eq_getElem?_getD, List.getElem?_eq_none h]

/-- C19.  Let `f` be a filter state reached from the constructor by any calls of
the public member functions, `p` the length of its `x1`, and `buffer` a buffer of
`c` channels.  Then `x2`, `y1`, `y2` have length `p` too; after
`processingBlock(buffer)` the four vectors have length `c`; the size adjustment
at the head of the call keeps the entries of the channels below `c` and appends
zeros for the channels from `p` on; and the samples written into channel `j`
are those of the one-channel recursion started from the entries the filter held
for `j` when `j < p`, and from an all-zero delay line when `j ≥ p`. -/
theorem channel_resize_keeps_history [Field R] [DecidableEq R] (N : Numerics R)
    (ops : List (FilterOp R)) (buffer : AudioBuffer R) :
    let f := ops.foldl (FilterOp.apply N) (BiquadFilter.new N)
    let p := f.x1.length
    let c := buffer.channels.length
    (f.x2.length = p ∧ f.y1.length = p ∧ f.y2.length = p) ∧
    ((BiquadFilter.processingBlock N f buffer).1.x1.length = c ∧
      (BiquadFilter.processingBlock N f buffer).1.x2.length = c ∧
      (BiquadFilter.processingBlock N f buffer).1.y1.length = c ∧
      (BiquadFilter.processingBlock N f buffer).1.y2.length = c) ∧
    ((ensureSize f c).x1 = f.x1.take c ++ List.replicate (c - p) 0 ∧
      (ensureSize f c).x2 = f.x2.take c ++ List.replicate (c - p) 0 ∧
      (ensureSize f c).y1 = f.y1.take c ++ List.replicate (c - p) 0 ∧
      (ensureSize f c).y2 = f.y2.take c ++ List.replicate (c - p) 0) ∧
    ∀ (j : Nat) (x : List R), buffer.channels[j]? = some x →
      (BiquadFilter.processingBlock N f buffer).2.channels[j]? =
        some ((runDelay f.coefficients
          (if j < p then ⟨f.x1.getD j 0, f.x2.getD j 0, f.y1.getD j 0, f.y2.getD j 0⟩
           else ⟨0, 0, 0, 0⟩) x).2.map N.narrow) := by
  intro f p c
  have wf : WellFormed N f := wellFormed_foldl N ops _ (wellFormed_new N)
  obtain ⟨-, w2, w3, w4⟩ := wf
  obtain ⟨e1, e2, e3⟩ := ensureSize_spec f c ⟨w2, w3, w4⟩
  obtain ⟨⟨l1, l2, l3, l4⟩, -, -, -, h5⟩ :=
    processChannels_spec N c buffer.channels 0 _ e1 (by omega)
  refine ⟨⟨w2, w3, w4⟩, ⟨l1, l2, l3, l4⟩, ?_, ?_⟩
  · unfold ensureSize
    split
    · refine ⟨?_, ?_, ?_, ?_⟩ <;> simp [resize, w2, w3, w4, p]
    · rename_i h
      have hpc : f.x1.length = c := by simpa using h
      have z : c - p = 0 := by omega
      rw [z]
      simp only [List.replicate_zero, List.append_nil]
      exact ⟨(List.take_of_length_le (by omega)).symm,
        (List.take_of_length_le (by omega)).symm,
        (List.take_of_length_le (by omega)).symm,
        (List.take_of_length_le (by omega)).symm⟩
  · intro j x hx
    have hj : j < c := by
      by_contra h
      rw [List.getElem?_eq_none (by omega)] at hx
      exact Option.noConfusion hx
    obtain ⟨ho, -⟩ := h5 j x hx
    rw [Nat.zero_add, e2, e3 j hj] at ho
    have ht : f.tapsAt j =
        (if j < p then ⟨f.x1.getD j 0, f.x2.getD j 0, f.y1.getD j 0, f.y2.getD j 0⟩
         else ⟨0, 0, 0, 0⟩ : DelayLine R) := by
      split
      · rfl
      · rename_i hjp
        simp only [BiquadFilter.tapsAt]
        rw [getD_of_length_le f.x1 j (by omega), getD_of_length_le f.x2 j (by omega),
          getD_of_length_le f.y1 j (by omega), getD_of_length_le f.y2 j (by omega)]
    rw [← ht]
    exact ho

/-- One `processingBlock` call on a filter whose state vectors have one length,
channel by channel. -/
theorem processingBlock_spec [Field R] (N : Numerics R) (f : BiquadFilter R)
    (buffer : AudioBuffer R)
    (hlen : f.x2.length = f.x1.length ∧ f.y1.length = f.x1.length ∧ f.y2.length = f.x1.length) :
    SameLengths (BiquadFilter.processingBlock N f buffer).1 buffer.channels.length ∧
    SameSettings (BiquadFilter.processingBlock N f buffer).1 f ∧
    (BiquadFilter.processingBlock N f buffer).2.channels.length = buffer.channels.length ∧
    ∀ j x, buffer.channels[j]? = some x →
      (BiquadFilter.processingBlock N f buffer).2.channels[j]? =
          some ((runDelay f.coefficients (f.tapsAt j) x).2.map N.narrow) ∧
      (BiquadFilter.processingBlock N f buffer).1.tapsAt j =
          (runDelay f.coefficients (f.tapsAt j) x).1 := by
  obtain ⟨e1, e2, e3⟩ := ensureSize_spec f buffer.channels.length hlen
  obtain ⟨h1, -, h3, -, h5⟩ :=
    processChannels_spec N buffer.channels.length buffer.channels 0 _ e1 (by omega)
  refine ⟨h1, sameSettings_processingBlock N f buffer, h3, ?_⟩
  intro j x hx
  have hj : j < buffer.channels.length := by
    by_contra h
    rw [List.getElem?_eq_none (by omega)] at hx
    exact Option.noConfusion hx
  obtain ⟨ho, ht⟩ := h5 j x hx
  rw [Nat.zero_add, e2, e3 j hj] at ho ht
  exact ⟨ho, ht⟩

theorem list_eq_of_getD [Zero R] (v w : List R) (n : Nat) (hv : v.length = n)
    (hw : w.length = n) (h : ∀ i, i < n → v.getD i 0 = w.getD i 0) : v = w := by
  apply List.ext_getElem (by omega)
  intro i h1 h2
  have := h i (by omega)
  simpa [List.getD_eq_getElem?_getD, List.getElem?_eq_getElem h1,
    List.getElem?_eq_getElem h2] using this

/-- Two filter states with the same settings, state vectors of the same length
and the same entries for every channel are the same state. -/
theorem filter_eq_of_taps [Zero R] (f g : BiquadFilter R) (n : Nat) (hs : SameSettings f g)
    (hf : SameLengths f n) (hg : SameLengths g n)
    (ht : ∀ i, i < n → f.tapsAt i = g.tapsAt i) : f = g := by
  obtain ⟨f1, f2, f3, f4⟩ := hf
  obtain ⟨g1, g2, g3, g4⟩ := hg
  have e1 : f.x1 = g.x1 :=
    list_eq_of_getD _ _ n f1 g1 fun i hi => congrArg DelayLine.x1 (ht i hi)
  have e2 : f.x2 = g.x2 :=
    list_eq_of_getD _ _ n f2 g2 fun i hi => congrArg DelayLine.x2 (ht i hi)
  have e3 : f.y1 = g.y1 :=
    list_eq_of_getD _ _ n f3 g3 fun i hi => congrArg DelayLine.y1 (ht i hi)
  have e4 : f.y2 = g.y2 :=
    list_eq_of_getD _ _ n f4 g4 fun i hi => congrArg DelayLine.y2 (ht i hi)
  obtain ⟨s1, s2, s3, s4, s5, s6, s7, s8, s9, s10, s11⟩ := hs
  obtain ⟨ft, fr, q, gn, sr, b0, b1, b2, a0, a1, a2, x1, x2, y1, y2⟩ := f
  obtain ⟨ft', fr', q', gn', sr', b0', b1', b2', a0', a1', a2', x1', x2', y1', y2'⟩ := g
  simp only at s1 s2 s3 s4 s5 s6 s7 s8 s9 s10 s11 e1 e2 e3 e4
  subst s1 s2 s3 s4 s5 s6 s7 s8 s9 s10 s11 e1 e2 e3 e4
  rfl

theorem coefficients_eq_of_sameSettings (f g : BiquadFilter R) (h : SameSettings f g) :
    f.coefficients = g.coefficients := by
  obtain ⟨-, -, -, -, -, s6, s7, s8, s9, s10, s11⟩ := h
  simp only [BiquadFilter.coefficients, s6, s7, s8, s9, s10, s11]

/-- C21.  Let `f` be a filter state reached from the constructor by any calls of
the public member functions, and `X`, `Y` two buffers with the same number of
channels.  Then one `processingBlock` call on the buffer that holds, channel by
channel, the samples of `X` followed by those of `Y` writes the samples that
`processingBlock(X)` followed by `processingBlock(Y)` write, in the same order,
and leaves the same filter state (the same `x1`, `x2`, `y1`, `y2`). -/
theorem processingBlock_block_independent [Field R] [DecidableEq R] (N : Numerics R)
    (ops : List (FilterOp R)) (X Y : AudioBuffer R)
    (hc : X.channels.length = Y.channels.length) :
    (BiquadFilter.processingBlock N (ops.foldl (FilterOp.apply N) (BiquadFilter.new N))
        { numSamples := X.numSamples + Y.numSamples,
          channels := List.zipWith (fun x y => x ++ y) X.channels Y.channels }).2.channels =
      List.zipWith (fun x y => x ++ y)
        (BiquadFilter.processingBlock N
          (ops.foldl (FilterOp.apply N) (BiquadFilter.new N)) X).2.channels
        (BiquadFilter.processingBlock N
          (BiquadFilter.processingBlock N
            (ops.foldl (FilterOp.apply N) (BiquadFilter.new N)) X).1 Y).2.channels ∧
    (BiquadFilter.processingBlock N (ops.foldl (FilterOp.apply N) (BiquadFilter.new N))
        { numSamples := X.numSamples + Y.numSamples,
          channels := List.zipWith (fun x y => x ++ y) X.channels Y.channels }).1 =
      (BiquadFilter.processingBlock N
        (BiquadFilter.processingBlock N
          (ops.foldl (FilterOp.apply N) (BiquadFilter.new N)) X).1 Y).1 := by
  generalize hfdef : ops.foldl (FilterOp.apply N) (BiquadFilter.new N) = f
  have wf : WellFormed N f := hfdef ▸ wellFormed_foldl N ops _ (wellFormed_new N)
  obtain ⟨-, w2, w3, w4⟩ := wf
  obtain ⟨xl, xs, xc, xo⟩ := processingBlock_spec N f X ⟨w2, w3, w4⟩
  generalize hgX : BiquadFilter.processingBlock N f X = rX at xl xs xc xo ⊢
  have wX : rX.1.x2.length = rX.1.x1.length ∧ rX.1.y1.length = rX.1.x1.length ∧
      rX.1.y2.length = rX.1.x1.length := by
    obtain ⟨l1, l2, l3, l4⟩ := xl
    omega
  obtain ⟨yl, ys, yc, yo⟩ := processingBlock_spec N rX.1 Y wX
  generalize hgY : BiquadFilter.processingBlock N rX.1 Y = rY at yl ys yc yo ⊢
  obtain ⟨zl, zs, zc, zo⟩ := processingBlock_spec N f
    { numSamples := X.numSamples + Y.numSamples,
      channels := List.zipWith (fun x y => x ++ y) X.channels Y.channels } ⟨w2, w3, w4⟩
  generalize hgZ : BiquadFilter.processingBlock N f
    { numSamples := X.numSamples + Y.numSamples,
      channels := List.zipWith (fun x y => x ++ y) X.channels Y.channels } = rZ at zl zs zc zo ⊢
  simp only [List.length_zipWith, ← hc, Nat.min_self] at zl zc
  have hcoef : rX.1.coefficients = f.coefficients := coefficients_eq_of_sameSettings _ _ xs
  -- the channels of the three buffers, index by index
  have key : ∀ j, j < X.channels.length → ∃ x y, X.channels[j]? = some x ∧
      Y.channels[j]? = some y ∧
      (List.zipWith (fun x y => x ++ y) X.channels Y.channels)[j]? = some (x ++ y) := by
    intro j hj
    have hy : j < Y.channels.length := by omega
    refine ⟨X.channels[j], Y.channels[j], List.getElem?_eq_getElem hj,
      List.getElem?_eq_getElem hy, ?_⟩
    rw [List.getElem?_zipWith, List.getElem?_eq_getElem hj, List.getElem?_eq_getElem hy]
  constructor
  · apply List.ext_getElem?
    intro j
    by_cases hj : j < X.channels.length
    · obtain ⟨x, y, hx, hy, hxy⟩ := key j hj
      obtain ⟨ox, tx⟩ := xo j x hx
      obtain ⟨oy, -⟩ := yo j y hy
      obtain ⟨oz, -⟩ := zo j (x ++ y) hxy
      rw [oz, List.getElem?_zipWith, ox, oy, hcoef, tx, runDelay_append]
      simp
    · rw [List.getElem?_eq_none (by omega), List.getElem?_eq_none]
      simp only [List.length_zipWith]
      omega
  · apply filter_eq_of_taps rZ.1 rY.1 X.channels.length (sameSettings_trans zs ?_) zl
      (hc ▸ yl)
    · intro j hj
      obtain ⟨x, y, hx, hy, hxy⟩ := key j hj
      obtain ⟨-, tx⟩ := xo j x hx
      obtain ⟨-, ty⟩ := yo j y hy
      obtain ⟨-, tz⟩ := zo j (x ++ y) hxy
      rw [tz, ty, hcoef, tx, runDelay_append]
    · obtain ⟨a1, a2, a3, a4, a5, a6, a7, a8, a9, a10, a11⟩ := sameSettings_trans ys xs
      exact ⟨a1.symm, a2.symm, a3.symm, a4.symm, a5.symm, a6.symm, a7.symm, a8.symm, a9.symm,
        a10.symm, a11.symm⟩

/-- C21 on a filter as constructed and two two-channel buffers of two and one
frames. -/
theorem processingBlock_block_independent_witness :
    (BiquadFilter.processingBlock testNumerics
        (([] : List (FilterOp ℚ)).foldl (FilterOp.apply testNumerics)
          (BiquadFilter.new testNumerics))
        { numSamples := 2 + 1,
          channels := List.zipWith (fun x y => x ++ y) [[1, 2], [3, 4]] [[5], [6]] }).2.channels =
      List.zipWith (fun x y => x ++ y)
        (BiquadFilter.processingBlock testNumerics
          (([] : List (FilterOp ℚ)).foldl (FilterOp.apply testNumerics)
            (BiquadFilter.new testNumerics))
          { numSamples := 2, channels := [[1, 2], [3, 4]] }).2.channels
        (BiquadFilter.processingBlock testNumerics
          (BiquadFilter.processingBlock testNumerics
            (([] : List (FilterOp ℚ)).foldl (FilterOp.apply testNumerics)
              (BiquadFilter.new testNumerics))
            { numSamples := 2, channels := [[1, 2], [3, 4]] }).1
          { numSamples := 1, channels := [[5], [6]] }).2.channels ∧
    (BiquadFilter.processingBlock testNumerics
        (([] : List (FilterOp ℚ)).foldl (FilterOp.apply testNumerics)
          (BiquadFilter.new testNumerics))
        { numSamples := 2 + 1,
          channels := List.zipWith (fun x y => x ++ y) [[1, 2], [3, 4]] [[5], [6]] }).1 =
      (BiquadFilter.processingBlock testNumerics
        (BiquadFilter.processingBlock testNumerics
          (([] : List (FilterOp ℚ)).foldl (FilterOp.apply testNumerics)
            (BiquadFilter.new testNumerics))
          { numSamples := 2, channels := [[1, 2], [3, 4]] }).1
        { numSamples := 1, channels := [[5], [6]] }).1 :=
  processingBlock_block_independent testNumerics []
    { numSamples := 2, channels := [[1, 2], [3, 4]] }
    { numSamples := 1, channels := [[5], [6]] } rfl

end Quiz
